import Mathlib

/-!
# Coordinate remapping pipeline of `lib/transformer.cc`

A shallow embedding of the canvas transformers of `rgb_matrix`
(`RotateTransformer`, `LinkedTransformer`, `UArrangementTransformer`,
`LargeSquare64x64Transformer`, `MyNewTransformer`) and theorems about them.

Conventions of the embedding.

* C++ `int` is `Int`; `/` and `%` are `Int.tdiv` and `Int.tmod` (truncation
  toward zero), and a zero divisor is a fault.  Signed overflow is undefined
  in C++ and is not modelled: arithmetic is exact.
* `uint8_t` colour components are `Fin 256`; they are only passed along.
* Objects live in a heap indexed by addresses; a `Canvas*` is an optional
  address, `none` being `NULL`.
* `assert` is taken as enabled: a failed `assert` ends the run with
  `Fault.assert_failed`.
* Calls through a `Canvas*` are virtual; the dispatcher `Canvas.virt` carries
  a nesting budget so that it is total even on cyclic delegation chains.
* `fprintf`/`printf` diagnostics have no effect on any canvas and are left
  out.
-/

namespace rgb_matrix

/-- Ways a run can end without a result. -/
inductive Fault
  /-- An `assert` did not hold: the process is terminated. -/
  | assert_failed
  /-- Null or dangling pointer dereference, or division by zero. -/
  | undefined_behaviour
  /-- The nesting budget of the virtual dispatcher is used up. -/
  | out_of_fuel
  deriving DecidableEq, Repr

/-- A `Canvas*`: `none` is `NULL`, `some a` the object at address `a`. -/
abbrev Ptr := Option Nat

/-- A call received through the `Canvas` interface. -/
inductive Call
  | SetPixel (x y : Int) (red green blue : Fin 256)
  | Clear
  | Fill (red green blue : Fin 256)
  deriving DecidableEq, Repr

/-- Modelled from the spec: the external drawing surface (the `Canvas`
implementation behind the pipeline, declared in `led-matrix.h`, which is not
part of the sources at hand), as the test double of the spec's testable
properties: it reports a fixed width and height and records, in order, every
call it receives.  The fields are `Int` as `width()` and `height()` return
`int`; a surface reports numbers of pixels, and a theorem that relies on a
size being non-negative says so. -/
structure Recorder where
  width : Int
  height : Int
  calls : List Call
  deriving DecidableEq, Repr

/-- Fields of `RotateTransformer::TransformCanvas`. -/
structure RotateTransformer.TransformCanvas where
  delegatee_ : Ptr
  angle_ : Int
  deriving DecidableEq, Repr

/-- Fields of `UArrangementTransformer::TransformCanvas`. -/
structure UArrangementTransformer.TransformCanvas where
  parallel_ : Int
  width_ : Int
  height_ : Int
  panel_height_ : Int
  delegatee_ : Ptr
  deriving DecidableEq, Repr

/-- Fields of `MyNewTransformer::TransformCanvas`. -/
structure MyNewTransformer.TransformCanvas where
  delegatee_ : Ptr
  deriving DecidableEq, Repr

/-- A canvas object on the heap, tagged with its dynamic type. -/
inductive Obj
  | surface (s : Recorder)
  | rotate (c : RotateTransformer.TransformCanvas)
  | uarrangement (c : UArrangementTransformer.TransformCanvas)
  | mynew (c : MyNewTransformer.TransformCanvas)
  deriving DecidableEq, Repr

/-- The heap: what object, if any, lives at each address. -/
abbrev Heap := Nat → Option Obj

/-- The heap with no object at all. -/
def Heap.empty : Heap := fun _ => none

/-- Store object `o` at address `a`. -/
def Heap.store (h : Heap) (a : Nat) (o : Obj) : Heap :=
  fun b => if b = a then some o else h b

/-- C++ `a / b` on `int`: truncating division, undefined for `b = 0`. -/
def cdiv (a b : Int) : Except Fault Int :=
  if b = 0 then .error .undefined_behaviour else .ok (a.tdiv b)

/-- C++ `a % b` on `int`: remainder of truncating division, undefined for
`b = 0`. -/
def cmod (a b : Int) : Except Fault Int :=
  if b = 0 then .error .undefined_behaviour else .ok (a.tmod b)

/-- The virtual interface `Canvas`, as seen through a `Canvas*`: each method
takes the pointer it is called on and the current heap. -/
structure Canvas where
  width : Ptr → Heap → Except Fault Int
  height : Ptr → Heap → Except Fault Int
  SetPixel : Ptr → Int → Int → Fin 256 → Fin 256 → Fin 256 → Heap → Except Fault Heap
  Clear : Ptr → Heap → Except Fault Heap
  Fill : Ptr → Fin 256 → Fin 256 → Fin 256 → Heap → Except Fault Heap

/-! ## Rotate transformer canvas -/

/-- `RotateTransformer::TransformCanvas::SetDelegatee`. -/
def RotateTransformer.TransformCanvas.SetDelegatee (this : Nat) (delegatee : Ptr)
    (h : Heap) : Except Fault Heap :=
  match h this with
  | some (.rotate c) => .ok (h.store this (.rotate { c with delegatee_ := delegatee }))
  | _ => .error .undefined_behaviour

/-- `RotateTransformer::TransformCanvas::SetPixel`: the `switch` on `angle_`
has the four cases 0, 90, 180, 270 and no default. -/
def RotateTransformer.TransformCanvas.SetPixel (V : Canvas)
    (self : RotateTransformer.TransformCanvas) (x y : Int) (red green blue : Fin 256)
    (h : Heap) : Except Fault Heap :=
  if self.angle_ = 0 then
    V.SetPixel self.delegatee_ x y red green blue h
  else if self.angle_ = 90 then do
    let w ← V.width self.delegatee_ h
    V.SetPixel self.delegatee_ (w - y - 1) x red green blue h
  else if self.angle_ = 180 then do
    let w ← V.width self.delegatee_ h
    let ht ← V.height self.delegatee_ h
    V.SetPixel self.delegatee_ (w - x - 1) (ht - y - 1) red green blue h
  else if self.angle_ = 270 then do
    let ht ← V.height self.delegatee_ h
    V.SetPixel self.delegatee_ y (ht - x - 1) red green blue h
  else
    .ok h

/-- `RotateTransformer::TransformCanvas::width`. -/
def RotateTransformer.TransformCanvas.width (V : Canvas)
    (self : RotateTransformer.TransformCanvas) (h : Heap) : Except Fault Int :=
  if self.angle_.tmod 180 = 0 then V.width self.delegatee_ h else V.height self.delegatee_ h

/-- `RotateTransformer::TransformCanvas::height`. -/
def RotateTransformer.TransformCanvas.height (V : Canvas)
    (self : RotateTransformer.TransformCanvas) (h : Heap) : Except Fault Int :=
  if self.angle_.tmod 180 = 0 then V.height self.delegatee_ h else V.width self.delegatee_ h

/-- `RotateTransformer::TransformCanvas::Clear`. -/
def RotateTransformer.TransformCanvas.Clear (V : Canvas)
    (self : RotateTransformer.TransformCanvas) (h : Heap) : Except Fault Heap :=
  V.Clear self.delegatee_ h

/-- `RotateTransformer::TransformCanvas::Fill`. -/
def RotateTransformer.TransformCanvas.Fill (V : Canvas)
    (self : RotateTransformer.TransformCanvas) (red green blue : Fin 256)
    (h : Heap) : Except Fault Heap :=
  V.Fill self.delegatee_ red green blue h

/-- `RotateTransformer::TransformCanvas::SetAngle`: the `assert` comes before
any access to the object. -/
def RotateTransformer.TransformCanvas.SetAngle (this : Nat) (angle : Int)
    (h : Heap) : Except Fault Heap :=
  if angle.tmod 90 ≠ 0 then .error .assert_failed
  else match h this with
    | some (.rotate c) =>
      .ok (h.store this (.rotate { c with angle_ := (angle + 360).tmod 360 }))
    | _ => .error .undefined_behaviour

/-- `RotateTransformer::TransformCanvas::TransformCanvas(int angle)`, run at
address `this`: `delegatee_` starts as `NULL`, then `SetAngle(angle)`.
`angle_` has no initialiser; the placeholder `0` is overwritten by `SetAngle`
before the constructor can return. -/
def RotateTransformer.TransformCanvas.ctor (this : Nat) (angle : Int)
    (h : Heap) : Except Fault Heap :=
  RotateTransformer.TransformCanvas.SetAngle this angle
    (h.store this (.rotate { delegatee_ := none, angle_ := 0 }))

/-! ## U-arrangement transformer canvas -/

/-- `UArrangementTransformer::TransformCanvas::TransformCanvas(int parallel)`,
run at address `this`: `parallel_` and `delegatee_(NULL)` are initialised;
`width_`, `height_` and `panel_height_` have no initialiser and hold the
indeterminate values `w0`, `h0`, `p0` until `SetDelegatee` runs. -/
def UArrangementTransformer.TransformCanvas.ctor (this : Nat) (parallel : Int)
    (w0 h0 p0 : Int) (h : Heap) : Heap :=
  h.store this (.uarrangement
    { parallel_ := parallel, width_ := w0, height_ := h0, panel_height_ := p0,
      delegatee_ := none })

/-- `UArrangementTransformer::TransformCanvas::SetDelegatee`, statement by
statement on the object at address `this`.  The test of
`delegatee->width() % 64` only prints a warning. -/
def UArrangementTransformer.TransformCanvas.SetDelegatee (V : Canvas) (this : Nat)
    (delegatee : Ptr) (h : Heap) : Except Fault Heap :=
  match h this with
  | some (.uarrangement c0) => do
    let c1 := { c0 with delegatee_ := delegatee }
    let h1 := h.store this (.uarrangement c1)
    let w ← V.width delegatee h1
    let c2 := { c1 with width_ := w.tdiv 64 * 32 }
    let h2 := h1.store this (.uarrangement c2)
    let ht ← V.height delegatee h2
    let c3 := { c2 with height_ := 2 * ht }
    let h3 := h2.store this (.uarrangement c3)
    let _ ← V.width delegatee h3
    let ht1 ← V.height delegatee h3
    let r ← cmod ht1 c3.parallel_
    if r ≠ 0 then .error .assert_failed
    else do
      let ht2 ← V.height delegatee h3
      let q ← cdiv ht2 c3.parallel_
      .ok (h3.store this (.uarrangement { c3 with panel_height_ := q }))
  | _ => .error .undefined_behaviour

/-- `UArrangementTransformer::TransformCanvas::Clear`. -/
def UArrangementTransformer.TransformCanvas.Clear (V : Canvas)
    (self : UArrangementTransformer.TransformCanvas) (h : Heap) : Except Fault Heap :=
  V.Clear self.delegatee_ h

/-- `UArrangementTransformer::TransformCanvas::Fill`. -/
def UArrangementTransformer.TransformCanvas.Fill (V : Canvas)
    (self : UArrangementTransformer.TransformCanvas) (red green blue : Fin 256)
    (h : Heap) : Except Fault Heap :=
  V.Fill self.delegatee_ red green blue h

/-- `UArrangementTransformer::TransformCanvas::width`. -/
def UArrangementTransformer.TransformCanvas.width
    (self : UArrangementTransformer.TransformCanvas) : Int :=
  self.width_

/-- `UArrangementTransformer::TransformCanvas::height`. -/
def UArrangementTransformer.TransformCanvas.height
    (self : UArrangementTransformer.TransformCanvas) : Int :=
  self.height_

/-- `UArrangementTransformer::TransformCanvas::SetPixel`. -/
def UArrangementTransformer.TransformCanvas.SetPixel (V : Canvas)
    (self : UArrangementTransformer.TransformCanvas) (x y : Int) (red green blue : Fin 256)
    (h : Heap) : Except Fault Heap :=
  if x < 0 ∨ x ≥ self.width_ ∨ y < 0 ∨ y ≥ self.height_ then .ok h
  else do
    let slab_height := 2 * self.panel_height_
    let q ← cdiv y slab_height
    let base_y := q * self.panel_height_
    let y1 ← cmod y slab_height
    if y1 < self.panel_height_ then do
      let w ← V.width self.delegatee_ h
      V.SetPixel self.delegatee_ (x + w.tdiv 2) (base_y + y1) red green blue h
    else
      V.SetPixel self.delegatee_ (self.width_ - x - 1) (base_y + (slab_height - y1 - 1))
        red green blue h

/-! ## MyNewTransformer canvas -/

/-- `MyNewTransformer::TransformCanvas::SetDelegatee`. -/
def MyNewTransformer.TransformCanvas.SetDelegatee (this : Nat) (delegatee : Ptr)
    (h : Heap) : Except Fault Heap :=
  match h this with
  | some (.mynew c) => .ok (h.store this (.mynew { c with delegatee_ := delegatee }))
  | _ => .error .undefined_behaviour

/-- `MyNewTransformer::TransformCanvas::Clear`. -/
def MyNewTransformer.TransformCanvas.Clear (V : Canvas)
    (self : MyNewTransformer.TransformCanvas) (h : Heap) : Except Fault Heap :=
  V.Clear self.delegatee_ h

/-- `MyNewTransformer::TransformCanvas::Fill`. -/
def MyNewTransformer.TransformCanvas.Fill (V : Canvas)
    (self : MyNewTransformer.TransformCanvas) (red green blue : Fin 256)
    (h : Heap) : Except Fault Heap :=
  V.Fill self.delegatee_ red green blue h

/-- `MyNewTransformer::TransformCanvas::width`. -/
def MyNewTransformer.TransformCanvas.width (V : Canvas)
    (self : MyNewTransformer.TransformCanvas) (h : Heap) : Except Fault Int := do
  let w ← V.width self.delegatee_ h
  .ok (w.tdiv 2)

/-- `MyNewTransformer::TransformCanvas::height`. -/
def MyNewTransformer.TransformCanvas.height (V : Canvas)
    (self : MyNewTransformer.TransformCanvas) (h : Heap) : Except Fault Int := do
  let ht ← V.height self.delegatee_ h
  .ok (ht * 2)

/-- `MyNewTransformer::TransformCanvas::SetPixel`. -/
def MyNewTransformer.TransformCanvas.SetPixel (V : Canvas)
    (self : MyNewTransformer.TransformCanvas) (x y : Int) (red green blue : Fin 256)
    (h : Heap) : Except Fault Heap :=
  let major_panel := x.tdiv 32
  let minor_panel := y.tdiv 8
  let x_vertical_offset := (minor_panel.tmod 2) * 32
  let x_horizontal_offset := major_panel * 64
  let new_x := (x.tmod 32) + x_horizontal_offset + x_vertical_offset
  let y_offset := (y.tdiv 16) * 8
  let new_y := (y.tmod 8) + y_offset
  V.SetPixel self.delegatee_ new_x new_y red green blue h

/-! ## Virtual dispatch -/

/-- The recording surface's reaction to a call: the call is appended to its
record, whatever its coordinates. -/
def Recorder.receive (this : Nat) (s : Recorder) (c : Call) (h : Heap) : Heap :=
  h.store this (.surface { s with calls := s.calls ++ [c] })

/-- Resolution of a call through a `Canvas*` on the dynamic type of the object
pointed to.  `Canvas.virt n` resolves calls that nest at most `n` objects
deep; a call on `NULL` or on an address holding no object is undefined. -/
def Canvas.virt : Nat → Canvas
  | 0 =>
    { width := fun _ _ => .error .out_of_fuel
      height := fun _ _ => .error .out_of_fuel
      SetPixel := fun _ _ _ _ _ _ _ => .error .out_of_fuel
      Clear := fun _ _ => .error .out_of_fuel
      Fill := fun _ _ _ _ _ => .error .out_of_fuel }
  | n + 1 =>
    { width := fun p h =>
        match p.bind h with
        | some (.surface s) => .ok s.width
        | some (.rotate c) => RotateTransformer.TransformCanvas.width (Canvas.virt n) c h
        | some (.uarrangement c) => .ok (UArrangementTransformer.TransformCanvas.width c)
        | some (.mynew c) => MyNewTransformer.TransformCanvas.width (Canvas.virt n) c h
        | none => .error .undefined_behaviour
      height := fun p h =>
        match p.bind h with
        | some (.surface s) => .ok s.height
        | some (.rotate c) => RotateTransformer.TransformCanvas.height (Canvas.virt n) c h
        | some (.uarrangement c) => .ok (UArrangementTransformer.TransformCanvas.height c)
        | some (.mynew c) => MyNewTransformer.TransformCanvas.height (Canvas.virt n) c h
        | none => .error .undefined_behaviour
      SetPixel := fun p x y red green blue h =>
        match p with
        | none => .error .undefined_behaviour
        | some a =>
          match h a with
          | some (.surface s) => .ok (s.receive a (.SetPixel x y red green blue) h)
          | some (.rotate c) =>
            RotateTransformer.TransformCanvas.SetPixel (Canvas.virt n) c x y red green blue h
          | some (.uarrangement c) =>
            UArrangementTransformer.TransformCanvas.SetPixel (Canvas.virt n) c x y red green
              blue h
          | some (.mynew c) =>
            MyNewTransformer.TransformCanvas.SetPixel (Canvas.virt n) c x y red green blue h
          | none => .error .undefined_behaviour
      Clear := fun p h =>
        match p with
        | none => .error .undefined_behaviour
        | some a =>
          match h a with
          | some (.surface s) => .ok (s.receive a .Clear h)
          | some (.rotate c) => RotateTransformer.TransformCanvas.Clear (Canvas.virt n) c h
          | some (.uarrangement c) =>
            UArrangementTransformer.TransformCanvas.Clear (Canvas.virt n) c h
          | some (.mynew c) => MyNewTransformer.TransformCanvas.Clear (Canvas.virt n) c h
          | none => .error .undefined_behaviour
      Fill := fun p red green blue h =>
        match p with
        | none => .error .undefined_behaviour
        | some a =>
          match h a with
          | some (.surface s) => .ok (s.receive a (.Fill red green blue) h)
          | some (.rotate c) =>
            RotateTransformer.TransformCanvas.Fill (Canvas.virt n) c red green blue h
          | some (.uarrangement c) =>
            UArrangementTransformer.TransformCanvas.Fill (Canvas.virt n) c red green blue h
          | some (.mynew c) =>
            MyNewTransformer.TransformCanvas.Fill (Canvas.virt n) c red green blue h
          | none => .error .undefined_behaviour }

/-! ## Transformers -/

/-- Fields of `RotateTransformer`: `canvas_` is the address of the
`TransformCanvas` the transformer owns. -/
structure RotateTransformer where
  angle_ : Int
  canvas_ : Nat
  deriving DecidableEq, Repr

/-- Fields of `UArrangementTransformer`. -/
structure UArrangementTransformer where
  canvas_ : Nat
  deriving DecidableEq, Repr

/-- Fields of `LargeSquare64x64Transformer`. -/
structure LargeSquare64x64Transformer where
  arrange_ : UArrangementTransformer
  rotated_ : RotateTransformer
  deriving DecidableEq, Repr

/-- Fields of `MyNewTransformer`. -/
structure MyNewTransformer where
  canvas_ : Nat
  deriving DecidableEq, Repr

/-- `RotateTransformer::RotateTransformer(int angle)`: `new TransformCanvas(angle)`
yields address `a`. -/
def RotateTransformer.ctor (angle : Int) (a : Nat) (h : Heap) :
    Except Fault (RotateTransformer × Heap) := do
  let h1 ← RotateTransformer.TransformCanvas.ctor a angle h
  .ok ({ angle_ := angle, canvas_ := a }, h1)

/-- `RotateTransformer::Transform`. -/
def RotateTransformer.Transform (self : RotateTransformer) (output : Ptr) (h : Heap) :
    Except Fault (Ptr × Heap) :=
  if output = none then .error .assert_failed
  else do
    let h1 ← RotateTransformer.TransformCanvas.SetDelegatee self.canvas_ output h
    .ok (some self.canvas_, h1)

/-- `RotateTransformer::SetAngle`. -/
def RotateTransformer.SetAngle (self : RotateTransformer) (angle : Int) (h : Heap) :
    Except Fault (RotateTransformer × Heap) := do
  let h1 ← RotateTransformer.TransformCanvas.SetAngle self.canvas_ angle h
  .ok ({ self with angle_ := angle }, h1)

/-- `UArrangementTransformer::UArrangementTransformer(int parallel)`:
`new TransformCanvas(parallel)` yields address `a`, then `assert(parallel > 0)`. -/
def UArrangementTransformer.ctor (parallel : Int) (a : Nat) (w0 h0 p0 : Int) (h : Heap) :
    Except Fault (UArrangementTransformer × Heap) :=
  let h1 := UArrangementTransformer.TransformCanvas.ctor a parallel w0 h0 p0 h
  if parallel > 0 then .ok ({ canvas_ := a }, h1) else .error .assert_failed

/-- `UArrangementTransformer::Transform`. -/
def UArrangementTransformer.Transform (V : Canvas) (self : UArrangementTransformer)
    (output : Ptr) (h : Heap) : Except Fault (Ptr × Heap) :=
  if output = none then .error .assert_failed
  else do
    let h1 ← UArrangementTransformer.TransformCanvas.SetDelegatee V self.canvas_ output h
    .ok (some self.canvas_, h1)

/-- `LargeSquare64x64Transformer::LargeSquare64x64Transformer()`:
`arrange_(1), rotated_(180)`, their canvases at addresses `a` and `b`. -/
def LargeSquare64x64Transformer.ctor (a b : Nat) (w0 h0 p0 : Int) (h : Heap) :
    Except Fault (LargeSquare64x64Transformer × Heap) := do
  let (arrange, h1) ← UArrangementTransformer.ctor 1 a w0 h0 p0 h
  let (rotated, h2) ← RotateTransformer.ctor 180 b h1
  .ok ({ arrange_ := arrange, rotated_ := rotated }, h2)

/-- `LargeSquare64x64Transformer::Transform`. -/
def LargeSquare64x64Transformer.Transform (V : Canvas) (self : LargeSquare64x64Transformer)
    (output : Ptr) (h : Heap) : Except Fault (Ptr × Heap) := do
  let (out1, h1) ← self.arrange_.Transform V output h
  self.rotated_.Transform out1 h1

/-- `MyNewTransformer::MyNewTransformer()`: `new TransformCanvas()` yields
address `a`. -/
def MyNewTransformer.ctor (a : Nat) (h : Heap) : MyNewTransformer × Heap :=
  ({ canvas_ := a }, h.store a (.mynew { delegatee_ := none }))

/-- `MyNewTransformer::Transform`. -/
def MyNewTransformer.Transform (self : MyNewTransformer) (output : Ptr) (h : Heap) :
    Except Fault (Ptr × Heap) :=
  if output = none then .error .assert_failed
  else do
    let h1 ← MyNewTransformer.TransformCanvas.SetDelegatee self.canvas_ output h
    .ok (some self.canvas_, h1)

/-- A `CanvasTransformer*` held by a pipeline, by the dynamic type of the
stage it points to. -/
inductive CanvasTransformer
  | Rotate (t : RotateTransformer)
  | UArrangement (t : UArrangementTransformer)
  | LargeSquare64x64 (t : LargeSquare64x64Transformer)
  | MyNew (t : MyNewTransformer)
  deriving DecidableEq, Repr

/-- The virtual `CanvasTransformer::Transform`. -/
def CanvasTransformer.Transform (V : Canvas) (self : CanvasTransformer) (output : Ptr)
    (h : Heap) : Except Fault (Ptr × Heap) :=
  match self with
  | .Rotate t => t.Transform output h
  | .UArrangement t => t.Transform V output h
  | .LargeSquare64x64 t => t.Transform V output h
  | .MyNew t => t.Transform output h

/-- Fields of `LinkedTransformer`. -/
structure LinkedTransformer where
  list_ : List CanvasTransformer
  deriving DecidableEq, Repr

/-- `LinkedTransformer::AddTransformer(CanvasTransformer *)`. -/
def LinkedTransformer.AddTransformer (self : LinkedTransformer)
    (transformer : CanvasTransformer) : LinkedTransformer :=
  { list_ := self.list_ ++ [transformer] }

/-- `LinkedTransformer::AddTransformer(List)`. -/
def LinkedTransformer.AddTransformers (self : LinkedTransformer)
    (transformer_list : List CanvasTransformer) : LinkedTransformer :=
  { list_ := self.list_ ++ transformer_list }

/-- `LinkedTransformer::SetTransformer`. -/
def LinkedTransformer.SetTransformer (_self : LinkedTransformer)
    (transformer_list : List CanvasTransformer) : LinkedTransformer :=
  { list_ := transformer_list }

/-- The loop of `LinkedTransformer::Transform` over the stages still to run. -/
def LinkedTransformer.Transform.loop (V : Canvas) :
    List CanvasTransformer → Ptr → Heap → Except Fault (Ptr × Heap)
  | [], output, h => .ok (output, h)
  | t :: rest, output, h => do
    let (output1, h1) ← t.Transform V output h
    LinkedTransformer.Transform.loop V rest output1 h1

/-- `LinkedTransformer::Transform`. -/
def LinkedTransformer.Transform (V : Canvas) (self : LinkedTransformer) (output : Ptr)
    (h : Heap) : Except Fault (Ptr × Heap) :=
  LinkedTransformer.Transform.loop V self.list_ output h

/-! ## Concrete configurations -/

/-- A recording surface of 64x32 at address 0 and, at address 1, a rotation
canvas with stored angle `a` bound to it. -/
def rotated64x32 (a : Int) : Heap :=
  (Heap.empty.store 0 (.surface { width := 64, height := 32, calls := [] })).store 1
    (.rotate { delegatee_ := some 0, angle_ := a })

/-- A recording surface of 64x32 at address 0 and four rotation canvases, not
yet bound, at addresses 1 to 4 with stored angles `a1` to `a4`. -/
def stages64x32 (a1 a2 a3 a4 : Int) : Heap :=
  ((((Heap.empty.store 0 (.surface { width := 64, height := 32, calls := [] })).store 1
    (.rotate { delegatee_ := none, angle_ := a1 })).store 2
    (.rotate { delegatee_ := none, angle_ := a2 })).store 3
    (.rotate { delegatee_ := none, angle_ := a3 })).store 4
    (.rotate { delegatee_ := none, angle_ := a4 })

/-- Through canvas pointer `p`, in heap `h`, the surface looks `W` wide and `H`
high, and every `SetPixel(x, y, colour)` ends as exactly one recorded
`SetPixel` at `f x y`, same colour, on the recording surface `s` at address
`d`, nothing else changing. -/
def Forwards (V : Canvas) (h : Heap) (p : Ptr) (d : Nat) (s : Recorder) (W H : Int)
    (f : Int → Int → Int × Int) : Prop :=
  V.width p h = .ok W ∧ V.height p h = .ok H ∧
    ∀ (x y : Int) (r g b : Fin 256), V.SetPixel p x y r g b h
      = .ok (h.store d (.surface
          { s with calls := s.calls ++ [.SetPixel (f x y).1 (f x y).2 r g b] }))

/-- A recording surface of `W` by `H` at address 0 and, at address 1, the
canvas of a U-arrangement stage with `parallel` chains as its constructor
leaves it (not yet bound; the fields without initialiser shown as 0). -/
def surfaceWithU (W H parallel : Int) : Heap :=
  UArrangementTransformer.TransformCanvas.ctor 1 parallel 0 0 0
    (Heap.empty.store 0 (.surface { width := W, height := H, calls := [] }))

/-- The heap `surfaceWithU 128 32 1` after the stage has been bound to the
surface: width 64, height 64, panel height 32. -/
def boundU128x32 : Heap :=
  (surfaceWithU 128 32 1).store 1
    (.uarrangement
      { parallel_ := 1, width_ := 64, height_ := 64, panel_height_ := 32,
        delegatee_ := some 0 })

/-- Two recording surfaces, 128x32 at address 0 and 64x64 at address 1, a
rotation canvas with stored angle 90 at address 2 and the canvas of a
U-arrangement stage with two parallel chains at address 3, neither bound. -/
def twoSurfaces : Heap :=
  (((Heap.empty.store 0 (.surface { width := 128, height := 32, calls := [] })).store 1
    (.surface { width := 64, height := 64, calls := [] })).store 2
    (.rotate { delegatee_ := none, angle_ := 90 })).store 3
    (.uarrangement
      { parallel_ := 2, width_ := 0, height_ := 0, panel_height_ := 0, delegatee_ := none })

/-- The legacy preset as its constructor builds it, with the U-arrangement
canvas at address 1 and the rotation canvas at address 2. -/
def largeSquarePreset : LargeSquare64x64Transformer :=
  { arrange_ := { canvas_ := 1 }, rotated_ := { angle_ := 180, canvas_ := 2 } }

/-- A recording surface of `W` by `H` at address 0 and the two canvases of the
legacy preset as `LargeSquare64x64Transformer::LargeSquare64x64Transformer()`
leaves them, at addresses 1 and 2 (not yet bound; the fields without
initialiser shown as 0). -/
def surfaceWithLargeSquare (W H : Int) : Heap :=
  match LargeSquare64x64Transformer.ctor 1 2 0 0 0
      (Heap.empty.store 0 (.surface { width := W, height := H, calls := [] })) with
  | .ok res => res.2
  | .error _ => Heap.empty

/-- The legacy composite preset in the spec's words: the pipeline that holds
its U-arrangement stage, then its rotation stage.  It is compared with
`LargeSquare64x64Transformer.Transform`, which is taken from the source. -/
def LargeSquare64x64Transformer.asPipeline (self : LargeSquare64x64Transformer) :
    LinkedTransformer :=
  (({ list_ := [] } : LinkedTransformer).AddTransformer
    (.UArrangement self.arrange_)).AddTransformer (.Rotate self.rotated_)

/-- The heap `surfaceWithLargeSquare 128 32` with, in addition, the canvas of a
separate U-arrangement stage with one parallel chain at address 3 and the
canvas of a separate rotation stage with stored angle 180 at address 4. -/
def presetAndStages128x32 : Heap :=
  ((surfaceWithLargeSquare 128 32).store 3
    (.uarrangement
      { parallel_ := 1, width_ := 0, height_ := 0, panel_height_ := 0,
        delegatee_ := none })).store 4
    (.rotate { delegatee_ := none, angle_ := 180 })

/-- A recording surface of 128x16 at address 0 (what `pixel-test.cc` sets up
with `rows = 16`, `chain = 4`, `parallel = 1`) and, at address 1, the canvas
of a `MyNewTransformer` bound to it. -/
def mynew128x16 : Heap :=
  (Heap.empty.store 0 (.surface { width := 128, height := 16, calls := [] })).store 1
    (.mynew { delegatee_ := some 0 })

/-! # Theorems -/

/-! ## Heap and dispatch facts -/

/-- Reading back the address just written. -/
theorem Heap.store_same (h : Heap) (a : Nat) (o : Obj) : (h.store a o) a = some o := by
  simp [Heap.store]

/-- A store leaves every other address as it was. -/
theorem Heap.store_other (h : Heap) {a b : Nat} (o : Obj) (hne : b ≠ a) :
    (h.store a o) b = h b := by
  simp [Heap.store, hne]

/-- A second store at the same address overwrites the first. -/
theorem Heap.store_store (h : Heap) (a : Nat) (o o1 : Obj) :
    (h.store a o).store a o1 = h.store a o1 := by
  funext b
  by_cases hb : b = a <;> simp [Heap.store, hb]

/-- Two addresses holding different objects are different. -/
theorem ne_of_objs {h : Heap} {a b : Nat} {o1 o2 : Obj} (ha : h a = some o1)
    (hb : h b = some o2) (hne : o1 ≠ o2) : a ≠ b := by
  intro hab
  subst hab
  rw [ha] at hb
  exact hne (Option.some.inj hb)

/-- Dispatch of `width()` on a recording surface. -/
theorem virt_width_surface (n : Nat) (h : Heap) (d : Nat) (s : Recorder)
    (hd : h d = some (.surface s)) : (Canvas.virt (n + 1)).width (some d) h = .ok s.width := by
  simp [Canvas.virt, hd]

/-- Dispatch of `height()` on a recording surface. -/
theorem virt_height_surface (n : Nat) (h : Heap) (d : Nat) (s : Recorder)
    (hd : h d = some (.surface s)) : (Canvas.virt (n + 1)).height (some d) h = .ok s.height := by
  simp [Canvas.virt, hd]

/-- Dispatch of `SetPixel` on a recording surface: the call is recorded. -/
theorem virt_SetPixel_surface (n : Nat) (h : Heap) (d : Nat) (s : Recorder)
    (x y : Int) (r g b : Fin 256) (hd : h d = some (.surface s)) :
    (Canvas.virt (n + 1)).SetPixel (some d) x y r g b h
      = .ok (h.store d (.surface { s with calls := s.calls ++ [.SetPixel x y r g b] })) := by
  simp [Canvas.virt, hd, Recorder.receive]

/-- Dispatch of `SetPixel` on a rotation canvas. -/
theorem virt_SetPixel_rotate (n : Nat) (h : Heap) (c : Nat)
    (s : RotateTransformer.TransformCanvas)
    (x y : Int) (r g b : Fin 256) (hc : h c = some (.rotate s)) :
    (Canvas.virt (n + 1)).SetPixel (some c) x y r g b h
      = RotateTransformer.TransformCanvas.SetPixel (Canvas.virt n) s x y r g b h := by
  simp [Canvas.virt, hc]

/-- Dispatch of `width()` on a rotation canvas. -/
theorem virt_width_rotate (n : Nat) (h : Heap) (c : Nat)
    (s : RotateTransformer.TransformCanvas) (hc : h c = some (.rotate s)) :
    (Canvas.virt (n + 1)).width (some c) h
      = RotateTransformer.TransformCanvas.width (Canvas.virt n) s h := by
  simp [Canvas.virt, hc]

/-- Dispatch of `height()` on a rotation canvas. -/
theorem virt_height_rotate (n : Nat) (h : Heap) (c : Nat)
    (s : RotateTransformer.TransformCanvas) (hc : h c = some (.rotate s)) :
    (Canvas.virt (n + 1)).height (some c) h
      = RotateTransformer.TransformCanvas.height (Canvas.virt n) s h := by
  simp [Canvas.virt, hc]

/-- Dispatch of `SetPixel` on a U-arrangement canvas. -/
theorem virt_SetPixel_uarrangement (n : Nat) (h : Heap) (c : Nat)
    (s : UArrangementTransformer.TransformCanvas)
    (x y : Int) (r g b : Fin 256) (hc : h c = some (.uarrangement s)) :
    (Canvas.virt (n + 1)).SetPixel (some c) x y r g b h
      = UArrangementTransformer.TransformCanvas.SetPixel (Canvas.virt n) s x y r g b h := by
  simp [Canvas.virt, hc]

/-- Dispatch of `width()` on a U-arrangement canvas. -/
theorem virt_width_uarrangement (n : Nat) (h : Heap) (c : Nat)
    (s : UArrangementTransformer.TransformCanvas) (hc : h c = some (.uarrangement s)) :
    (Canvas.virt (n + 1)).width (some c) h = .ok s.width_ := by
  simp [Canvas.virt, hc, UArrangementTransformer.TransformCanvas.width]

/-- Dispatch of `height()` on a U-arrangement canvas. -/
theorem virt_height_uarrangement (n : Nat) (h : Heap) (c : Nat)
    (s : UArrangementTransformer.TransformCanvas) (hc : h c = some (.uarrangement s)) :
    (Canvas.virt (n + 1)).height (some c) h = .ok s.height_ := by
  simp [Canvas.virt, hc, UArrangementTransformer.TransformCanvas.height]

/-- The C++ remainder `a % b` is zero exactly when `b` divides `a`. -/
theorem tmod_eq_zero_iff_dvd (a b : Int) : a.tmod b = 0 ↔ b ∣ a :=
  ⟨Int.dvd_of_tmod_eq_zero, Int.tmod_eq_zero_of_dvd⟩

/-! ## Forwarding through rotation canvases -/

/-- A recording surface forwards to itself, at the same coordinates. -/
theorem Forwards.surface (n : Nat) (h : Heap) (d : Nat) (s : Recorder)
    (hd : h d = some (.surface s)) :
    Forwards (Canvas.virt (n + 1)) h (some d) d s s.width s.height (fun x y => (x, y)) :=
  ⟨virt_width_surface n h d s hd, virt_height_surface n h d s hd,
    fun x y r g b => virt_SetPixel_surface n h d s x y r g b hd⟩

/-- A rotation canvas in front of something that forwards to a recording surface
forwards to it as well, through the coordinate change of its stored angle. -/
theorem Forwards.rotate (n : Nat) (h : Heap) (c : Nat) (p : Ptr) (a : Int) (d : Nat)
    (s : Recorder) (W H : Int) (f : Int → Int → Int × Int)
    (hc : h c = some (.rotate { delegatee_ := p, angle_ := a }))
    (hf : Forwards (Canvas.virt n) h p d s W H f) :
    (a = 0 → Forwards (Canvas.virt (n + 1)) h (some c) d s W H (fun x y => f x y))
    ∧ (a = 90 →
        Forwards (Canvas.virt (n + 1)) h (some c) d s H W (fun x y => f (W - y - 1) x))
    ∧ (a = 180 →
        Forwards (Canvas.virt (n + 1)) h (some c) d s W H
          (fun x y => f (W - x - 1) (H - y - 1)))
    ∧ (a = 270 →
        Forwards (Canvas.virt (n + 1)) h (some c) d s H W (fun x y => f y (H - x - 1))) := by
  obtain ⟨hw, hh, hs⟩ := hf
  have t0 : Int.tmod 0 180 = 0 := by decide
  have t90 : Int.tmod 90 180 = 90 := by decide
  have t180 : Int.tmod 180 180 = 0 := by decide
  have t270 : Int.tmod 270 180 = 90 := by decide
  refine ⟨?_, ?_, ?_, ?_⟩ <;> intro ha <;> subst ha <;>
    refine ⟨?_, ?_, ?_⟩ <;>
    simp [virt_width_rotate n h c _ hc, virt_height_rotate n h c _ hc,
      virt_SetPixel_rotate n h c _ _ _ _ _ _ hc,
      RotateTransformer.TransformCanvas.SetPixel, RotateTransformer.TransformCanvas.width,
      RotateTransformer.TransformCanvas.height, hw, hh, hs, t0, t90, t180, t270,
      bind, Except.bind]

/-! ## Binding and angle facts -/

/-- Binding a rotation stage to a non-null surface replaces the delegatee and
keeps the stored angle. -/
theorem Rotate_Transform_ok (t : RotateTransformer) (s : RotateTransformer.TransformCanvas)
    (p : Nat) (h : Heap) (hc : h t.canvas_ = some (.rotate s)) :
    t.Transform (some p) h
      = .ok (some t.canvas_,
          h.store t.canvas_ (.rotate { delegatee_ := some p, angle_ := s.angle_ })) := by
  simp [RotateTransformer.Transform, RotateTransformer.TransformCanvas.SetDelegatee, hc,
    bind, Except.bind]

/-- Binding the pipeline of two distinct rotation stages to the surface at
`d`: the first canvas delegates to `d`, the second to the first, the stored
angles and the surface are untouched. -/
theorem Linked_Transform_rotate2 (V : Canvas) (h : Heap) (d : Nat) (s : Recorder)
    (t1 t2 : RotateTransformer) (s1 s2 : RotateTransformer.TransformCanvas)
    (hd : h d = some (.surface s)) (hne : t1.canvas_ ≠ t2.canvas_)
    (h1 : h t1.canvas_ = some (.rotate s1)) (h2 : h t2.canvas_ = some (.rotate s2)) :
    ∃ hb, LinkedTransformer.Transform V { list_ := [.Rotate t1, .Rotate t2] } (some d) h
        = .ok (some t2.canvas_, hb)
      ∧ hb d = some (.surface s)
      ∧ hb t1.canvas_ = some (.rotate { delegatee_ := some d, angle_ := s1.angle_ })
      ∧ hb t2.canvas_
        = some (.rotate { delegatee_ := some t1.canvas_, angle_ := s2.angle_ }) := by
  have hd1 : d ≠ t1.canvas_ := ne_of_objs hd h1 (by simp)
  have hd2 : d ≠ t2.canvas_ := ne_of_objs hd h2 (by simp)
  have k2 : ∀ o, (h.store t1.canvas_ o) t2.canvas_ = some (.rotate s2) := by
    intro o; rw [Heap.store_other _ _ (Ne.symm hne), h2]
  refine ⟨(h.store t1.canvas_ (.rotate { delegatee_ := some d, angle_ := s1.angle_ })).store
      t2.canvas_ (.rotate { delegatee_ := some t1.canvas_, angle_ := s2.angle_ }),
    ?_, ?_, ?_, ?_⟩
  · simp only [LinkedTransformer.Transform, LinkedTransformer.Transform.loop,
      CanvasTransformer.Transform, Rotate_Transform_ok t1 s1 d h h1,
      Rotate_Transform_ok t2 s2 _ _ (k2 _), bind, Except.bind]
  · rw [Heap.store_other _ _ hd2, Heap.store_other _ _ hd1, hd]
  · rw [Heap.store_other _ _ hne, Heap.store_same]
  · rw [Heap.store_same]

/-- Binding the pipeline of four distinct rotation stages to the surface at
`d`: each canvas delegates to the one before it, the first to `d`. -/
theorem Linked_Transform_rotate4 (V : Canvas) (h : Heap) (d : Nat) (s : Recorder)
    (t1 t2 t3 t4 : RotateTransformer) (s1 s2 s3 s4 : RotateTransformer.TransformCanvas)
    (hd : h d = some (.surface s))
    (hnd : [t1.canvas_, t2.canvas_, t3.canvas_, t4.canvas_].Nodup)
    (h1 : h t1.canvas_ = some (.rotate s1)) (h2 : h t2.canvas_ = some (.rotate s2))
    (h3 : h t3.canvas_ = some (.rotate s3)) (h4 : h t4.canvas_ = some (.rotate s4)) :
    ∃ hb, LinkedTransformer.Transform V
          { list_ := [.Rotate t1, .Rotate t2, .Rotate t3, .Rotate t4] } (some d) h
        = .ok (some t4.canvas_, hb)
      ∧ hb d = some (.surface s)
      ∧ hb t1.canvas_ = some (.rotate { delegatee_ := some d, angle_ := s1.angle_ })
      ∧ hb t2.canvas_
        = some (.rotate { delegatee_ := some t1.canvas_, angle_ := s2.angle_ })
      ∧ hb t3.canvas_
        = some (.rotate { delegatee_ := some t2.canvas_, angle_ := s3.angle_ })
      ∧ hb t4.canvas_
        = some (.rotate { delegatee_ := some t3.canvas_, angle_ := s4.angle_ }) := by
  simp only [List.nodup_cons, List.mem_cons, List.mem_singleton, List.not_mem_nil,
    List.nodup_nil, not_or, or_false, and_true, not_false_eq_true] at hnd
  obtain ⟨⟨n12, n13, n14⟩, ⟨n23, n24⟩, n34⟩ := hnd
  have hd1 : d ≠ t1.canvas_ := ne_of_objs hd h1 (by simp)
  have hd2 : d ≠ t2.canvas_ := ne_of_objs hd h2 (by simp)
  have hd3 : d ≠ t3.canvas_ := ne_of_objs hd h3 (by simp)
  have hd4 : d ≠ t4.canvas_ := ne_of_objs hd h4 (by simp)
  have k2 : ∀ o, (h.store t1.canvas_ o) t2.canvas_ = some (.rotate s2) := by
    intro o; rw [Heap.store_other _ _ (Ne.symm n12), h2]
  have k3 : ∀ o1 o2, ((h.store t1.canvas_ o1).store t2.canvas_ o2) t3.canvas_
      = some (.rotate s3) := by
    intro o1 o2
    rw [Heap.store_other _ _ (Ne.symm n23), Heap.store_other _ _ (Ne.symm n13), h3]
  have k4 : ∀ o1 o2 o3,
      (((h.store t1.canvas_ o1).store t2.canvas_ o2).store t3.canvas_ o3) t4.canvas_
        = some (.rotate s4) := by
    intro o1 o2 o3
    rw [Heap.store_other _ _ (Ne.symm n34), Heap.store_other _ _ (Ne.symm n24),
      Heap.store_other _ _ (Ne.symm n14), h4]
  refine ⟨(((h.store t1.canvas_ (.rotate { delegatee_ := some d, angle_ := s1.angle_ })).store
      t2.canvas_ (.rotate { delegatee_ := some t1.canvas_, angle_ := s2.angle_ })).store
      t3.canvas_ (.rotate { delegatee_ := some t2.canvas_, angle_ := s3.angle_ })).store
      t4.canvas_ (.rotate { delegatee_ := some t3.canvas_, angle_ := s4.angle_ }),
    ?_, ?_, ?_, ?_, ?_, ?_⟩
  · simp only [LinkedTransformer.Transform, LinkedTransformer.Transform.loop,
      CanvasTransformer.Transform, Rotate_Transform_ok t1 s1 d h h1,
      Rotate_Transform_ok t2 s2 _ _ (k2 _), Rotate_Transform_ok t3 s3 _ _ (k3 _ _),
      Rotate_Transform_ok t4 s4 _ _ (k4 _ _ _), bind, Except.bind]
  · rw [Heap.store_other _ _ hd4, Heap.store_other _ _ hd3, Heap.store_other _ _ hd2,
      Heap.store_other _ _ hd1, hd]
  · rw [Heap.store_other _ _ n14, Heap.store_other _ _ n13, Heap.store_other _ _ n12,
      Heap.store_same]
  · rw [Heap.store_other _ _ n24, Heap.store_other _ _ n23, Heap.store_same]
  · rw [Heap.store_other _ _ n34, Heap.store_same]
  · rw [Heap.store_same]

/-- For a multiple of 90 that is at least -360, `SetAngle` stores one of 0, 90,
180, 270, congruent to the given angle modulo 360. -/
theorem SetAngle_from_neg360 (this : Nat) (angle : Int) (h : Heap)
    (c : RotateTransformer.TransformCanvas) (hc : h this = some (.rotate c))
    (hd : 90 ∣ angle) (hge : -360 ≤ angle) :
    ∃ a, RotateTransformer.TransformCanvas.SetAngle this angle h
        = .ok (h.store this (.rotate { delegatee_ := c.delegatee_, angle_ := a }))
      ∧ (a = 0 ∨ a = 90 ∨ a = 180 ∨ a = 270) ∧ 360 ∣ a - angle := by
  refine ⟨(angle + 360).tmod 360, ?_, ?_, ?_⟩
  · simp [RotateTransformer.TransformCanvas.SetAngle, hc, (tmod_eq_zero_iff_dvd angle 90).2 hd]
  · rw [Int.tmod_eq_emod (by omega) (by omega)]
    omega
  · rw [Int.tmod_eq_emod (by omega) (by omega)]
    omega

/-- A U-arrangement stage only comes into being with a positive number of
parallel chains: the constructor asserts it. -/
theorem UArrangementTransformer.ctor_ok_pos (parallel : Int) (a : Nat) (w0 h0 p0 : Int)
    (h : Heap) (res : UArrangementTransformer × Heap)
    (hok : UArrangementTransformer.ctor parallel a w0 h0 p0 h = .ok res) : 0 < parallel := by
  unfold UArrangementTransformer.ctor at hok
  by_cases hp : parallel > 0
  · exact hp
  · simp [hp] at hok

/-- What `SetDelegatee` of a U-arrangement canvas does on a recording surface of
width `W` and height `H`. -/
theorem UArrangement_SetDelegatee_surface (k : Nat) (h0 : Heap) (c d : Nat)
    (s0 : UArrangementTransformer.TransformCanvas) (W H : Int) (calls : List Call)
    (hc : h0 c = some (.uarrangement s0))
    (hd : h0 d = some (.surface { width := W, height := H, calls := calls })) :
    UArrangementTransformer.TransformCanvas.SetDelegatee (Canvas.virt (k + 1)) c (some d) h0
      = if s0.parallel_ = 0 then .error .undefined_behaviour
        else if H.tmod s0.parallel_ ≠ 0 then .error .assert_failed
        else .ok (h0.store c (.uarrangement
          { parallel_ := s0.parallel_, width_ := W.tdiv 64 * 32, height_ := 2 * H,
            panel_height_ := H.tdiv s0.parallel_, delegatee_ := some d })) := by
  have hne : d ≠ c := ne_of_objs hd hc (by simp)
  simp only [UArrangementTransformer.TransformCanvas.SetDelegatee, hc]
  have e1 : ∀ o, (h0.store c o) d
      = some (.surface { width := W, height := H, calls := calls }) := by
    intro o; rw [Heap.store_other _ _ hne, hd]
  simp only [Heap.store_store, virt_width_surface k _ d _ (e1 _),
    virt_height_surface k _ d _ (e1 _), bind, Except.bind, cmod, cdiv]
  by_cases hp : s0.parallel_ = 0
  · simp [hp]
  · by_cases hm : H.tmod s0.parallel_ = 0 <;> simp [hp, hm]

/-- What binding a U-arrangement stage to a recording surface of width `W` and
height `H` returns. -/
theorem UArrangement_Transform_surface (k : Nat) (h0 : Heap) (T : UArrangementTransformer)
    (d : Nat) (s0 : UArrangementTransformer.TransformCanvas) (W H : Int) (calls : List Call)
    (hc : h0 T.canvas_ = some (.uarrangement s0))
    (hd : h0 d = some (.surface { width := W, height := H, calls := calls })) :
    T.Transform (Canvas.virt (k + 1)) (some d) h0
      = if s0.parallel_ = 0 then .error .undefined_behaviour
        else if H.tmod s0.parallel_ ≠ 0 then .error .assert_failed
        else .ok (some T.canvas_, h0.store T.canvas_ (.uarrangement
          { parallel_ := s0.parallel_, width_ := W.tdiv 64 * 32, height_ := 2 * H,
            panel_height_ := H.tdiv s0.parallel_, delegatee_ := some d })) := by
  simp only [UArrangementTransformer.Transform,
    UArrangement_SetDelegatee_surface k h0 T.canvas_ d s0 W H calls hc hd]
  by_cases hp : s0.parallel_ = 0
  · simp [hp, bind, Except.bind]
  · by_cases hm : H.tmod s0.parallel_ = 0 <;> simp [hp, hm, bind, Except.bind]

/-- Binding a U-arrangement stage asks the delegatee for its size, so it needs a
dispatcher that resolves at least one call. -/
theorem UArrangement_Transform_no_fuel (h0 : Heap) (T : UArrangementTransformer)
    (p : Ptr) (res : Ptr × Heap) :
    T.Transform (Canvas.virt 0) p h0 ≠ .ok res := by
  unfold UArrangementTransformer.Transform
  by_cases hp : p = none
  · simp [hp]
  · simp only [hp, if_false, UArrangementTransformer.TransformCanvas.SetDelegatee]
    cases h0 T.canvas_ with
    | none => simp [bind, Except.bind]
    | some o => cases o <;> simp [bind, Except.bind, Canvas.virt]

/-- A successful binding of a U-arrangement stage with `p >= 1` chains to a
recording surface: `p` divides `H`, the stage hands out its own canvas, and
only that canvas has changed. -/
theorem UArrangement_bound_state (k : Nat) (h0 h : Heap) (T : UArrangementTransformer)
    (d : Nat) (s0 : UArrangementTransformer.TransformCanvas) (W H p : Int)
    (calls : List Call) (out : Ptr)
    (hc : h0 T.canvas_ = some (.uarrangement s0)) (hp : s0.parallel_ = p) (hp1 : 1 ≤ p)
    (hd : h0 d = some (.surface { width := W, height := H, calls := calls }))
    (hbind : T.Transform (Canvas.virt k) (some d) h0 = .ok (out, h)) :
    p ∣ H ∧ out = some T.canvas_
      ∧ h = h0.store T.canvas_ (.uarrangement
          { parallel_ := p, width_ := W.tdiv 64 * 32, height_ := 2 * H,
            panel_height_ := H / p, delegatee_ := some d }) := by
  cases k with
  | zero => exact absurd hbind (UArrangement_Transform_no_fuel h0 T _ _)
  | succ k =>
    rw [UArrangement_Transform_surface k h0 T d s0 W H calls hc hd, hp] at hbind
    have hp0 : p ≠ 0 := by omega
    by_cases hm : H.tmod p = 0
    · have hdvd : p ∣ H := Int.dvd_of_tmod_eq_zero hm
      simp only [hp0, hm, if_false, ne_eq, not_true_eq_false, Except.ok.injEq,
        Prod.mk.injEq] at hbind
      refine ⟨hdvd, hbind.1.symm, ?_⟩
      rw [← hbind.2, Int.tdiv_eq_ediv_of_dvd hdvd]
    · simp [hp0, hm] at hbind

/-- Size reported by a U-arrangement canvas after a successful binding. -/
theorem UArrangement_bound_size (k n : Nat) (h0 h : Heap) (T : UArrangementTransformer)
    (d : Nat) (s0 : UArrangementTransformer.TransformCanvas) (W H p : Int)
    (calls : List Call) (out : Ptr)
    (hc : h0 T.canvas_ = some (.uarrangement s0)) (hp : s0.parallel_ = p) (hp1 : 1 ≤ p)
    (hd : h0 d = some (.surface { width := W, height := H, calls := calls }))
    (hbind : T.Transform (Canvas.virt k) (some d) h0 = .ok (out, h)) :
    (Canvas.virt (n + 1)).width out h = .ok (W.tdiv 64 * 32)
    ∧ (0 ≤ W → (Canvas.virt (n + 1)).width out h = .ok (W / 64 * 32))
    ∧ (Canvas.virt (n + 1)).height out h = .ok (2 * H)
    ∧ h T.canvas_ = some (.uarrangement
        { parallel_ := p, width_ := W.tdiv 64 * 32, height_ := 2 * H,
          panel_height_ := H / p, delegatee_ := some d }) := by
  obtain ⟨_, hout, hh⟩ :=
    UArrangement_bound_state k h0 h T d s0 W H p calls out hc hp hp1 hd hbind
  have hs : h T.canvas_ = some (.uarrangement
        { parallel_ := p, width_ := W.tdiv 64 * 32, height_ := 2 * H,
          panel_height_ := H / p, delegatee_ := some d }) := by
    rw [hh, Heap.store_same]
  subst hout
  refine ⟨?_, ?_, ?_, hs⟩
  · rw [virt_width_uarrangement n h _ _ hs]
  · intro hW
    rw [virt_width_uarrangement n h _ _ hs, Int.tdiv_eq_ediv hW (by omega)]
  · rw [virt_height_uarrangement n h _ _ hs]

/-- An in-range `SetPixel` on a U-arrangement canvas in its bound state. -/
theorem UArrangement_SetPixel_in_range (n : Nat) (h : Heap) (c d : Nat) (W H p : Int)
    (calls : List Call) (x y : Int) (r g b : Fin 256)
    (hc : h c = some (.uarrangement
        { parallel_ := p, width_ := W.tdiv 64 * 32, height_ := 2 * H,
          panel_height_ := H / p, delegatee_ := some d }))
    (hd : h d = some (.surface { width := W, height := H, calls := calls }))
    (hp1 : 1 ≤ p) (hdvd : p ∣ H)
    (hx0 : 0 ≤ x) (hx1 : x < W / 64 * 32) (hy0 : 0 ≤ y) (hy1 : y < 2 * H) :
    (y % (2 * (H / p)) < H / p →
      (Canvas.virt (n + 2)).SetPixel (some c) x y r g b h
        = .ok (h.store d (.surface
            { width := W, height := H,
              calls := calls ++ [.SetPixel (x + W / 2)
                (y / (2 * (H / p)) * (H / p) + y % (2 * (H / p))) r g b] })))
    ∧ (¬ y % (2 * (H / p)) < H / p →
      (Canvas.virt (n + 2)).SetPixel (some c) x y r g b h
        = .ok (h.store d (.surface
            { width := W, height := H,
              calls := calls ++ [.SetPixel (W / 64 * 32 - x - 1)
                (y / (2 * (H / p)) * (H / p) + (2 * (H / p) - y % (2 * (H / p)) - 1))
                r g b] }))) := by
  have hW : 0 ≤ W := by omega
  have hH : 0 < H := by omega
  have hq : 0 < H / p := Int.ediv_pos_of_pos_of_dvd hH (by omega) hdvd
  have e64 : W.tdiv 64 = W / 64 := Int.tdiv_eq_ediv hW (by omega)
  have e2 : W.tdiv 2 = W / 2 := Int.tdiv_eq_ediv hW (by omega)
  have ed : y.tdiv (2 * (H / p)) = y / (2 * (H / p)) := Int.tdiv_eq_ediv hy0 (by omega)
  have em : y.tmod (2 * (H / p)) = y % (2 * (H / p)) := Int.tmod_eq_emod hy0 (by omega)
  have hs0 : 2 * (H / p) ≠ 0 := by omega
  have hq0 : H / p ≠ 0 := by omega
  have hin : ¬ (x < 0 ∨ x ≥ W / 64 * 32 ∨ y < 0 ∨ y ≥ 2 * H) := by omega
  rw [show n + 2 = (n + 1) + 1 from rfl, virt_SetPixel_uarrangement (n + 1) h c _ x y r g b hc]
  constructor <;> intro hlt <;>
    simp [UArrangementTransformer.TransformCanvas.SetPixel, e64, e2, ed, em, hq0, hin, hlt,
      cdiv, cmod, bind, Except.bind, virt_width_surface n h d _ hd,
      virt_SetPixel_surface n h d _ _ _ _ _ _ hd]

/-- Binding the one-chain U-arrangement stage to the 128x32 surface. -/
theorem surfaceWithU_bind_128x32 :
    UArrangementTransformer.Transform (Canvas.virt 1) { canvas_ := 1 } (some 0)
      (surfaceWithU 128 32 1) = .ok (some 1, boundU128x32) := by
  rw [UArrangement_Transform_surface 0 (surfaceWithU 128 32 1) { canvas_ := 1 } 0
    { parallel_ := 1, width_ := 0, height_ := 0, panel_height_ := 0, delegatee_ := none }
    128 32 [] rfl rfl]
  rfl

/-! ## C1: rotation, pixel mapping -/

/-- C1. A rotation canvas with stored angle `a`, bound to a recording surface
of width `W` and height `H`, answers `SetPixel(x, y, r, g, b)` for arbitrary
integers `x`, `y` (no bounds check) by exactly one `SetPixel` on that
surface, with the colour unchanged: at `(x, y)` for angle 0, at
`(W - y - 1, x)` for 90, at `(W - x - 1, H - y - 1)` for 180 and at
`(y, H - x - 1)` for 270.  Nothing else in the heap changes. -/
theorem C1_rotate_SetPixel (n : Nat) (h : Heap) (c d : Nat) (a W H : Int)
    (calls : List Call) (x y : Int) (r g b : Fin 256)
    (hc : h c = some (.rotate { delegatee_ := some d, angle_ := a }))
    (hd : h d = some (.surface { width := W, height := H, calls := calls })) :
    (a = 0 → (Canvas.virt (n + 2)).SetPixel (some c) x y r g b h
      = .ok (h.store d (.surface
          { width := W, height := H, calls := calls ++ [.SetPixel x y r g b] })))
    ∧ (a = 90 → (Canvas.virt (n + 2)).SetPixel (some c) x y r g b h
      = .ok (h.store d (.surface
          { width := W, height := H, calls := calls ++ [.SetPixel (W - y - 1) x r g b] })))
    ∧ (a = 180 → (Canvas.virt (n + 2)).SetPixel (some c) x y r g b h
      = .ok (h.store d (.surface
          { width := W, height := H,
            calls := calls ++ [.SetPixel (W - x - 1) (H - y - 1) r g b] })))
    ∧ (a = 270 → (Canvas.virt (n + 2)).SetPixel (some c) x y r g b h
      = .ok (h.store d (.surface
          { width := W, height := H, calls := calls ++ [.SetPixel y (H - x - 1) r g b] }))) := by
  rw [show n + 2 = (n + 1) + 1 from rfl, virt_SetPixel_rotate (n + 1) h c _ x y r g b hc]
  refine ⟨?_, ?_, ?_, ?_⟩ <;> intro ha <;> subst ha <;>
    simp [RotateTransformer.TransformCanvas.SetPixel, virt_width_surface n h d _ hd,
      virt_height_surface n h d _ hd, virt_SetPixel_surface n h d _ _ _ _ _ _ hd,
      bind, Except.bind]

/-- C1 on the inner 64x32 surface: at 180, (0,0) goes to (63,31), (63,31) to
(0,0) and (32,16) to (31,15); at 90, (0,0) goes to (63,0) and (31,63) to
(0,31). -/
theorem C1_rotate_SetPixel_witness :
    (Canvas.virt 2).SetPixel (some 1) 0 0 170 85 255 (rotated64x32 180)
        = .ok ((rotated64x32 180).store 0 (.surface
            { width := 64, height := 32, calls := [.SetPixel 63 31 170 85 255] }))
    ∧ (Canvas.virt 2).SetPixel (some 1) 63 31 170 85 255 (rotated64x32 180)
        = .ok ((rotated64x32 180).store 0 (.surface
            { width := 64, height := 32, calls := [.SetPixel 0 0 170 85 255] }))
    ∧ (Canvas.virt 2).SetPixel (some 1) 32 16 170 85 255 (rotated64x32 180)
        = .ok ((rotated64x32 180).store 0 (.surface
            { width := 64, height := 32, calls := [.SetPixel 31 15 170 85 255] }))
    ∧ (Canvas.virt 2).SetPixel (some 1) 0 0 170 85 255 (rotated64x32 90)
        = .ok ((rotated64x32 90).store 0 (.surface
            { width := 64, height := 32, calls := [.SetPixel 63 0 170 85 255] }))
    ∧ (Canvas.virt 2).SetPixel (some 1) 31 63 170 85 255 (rotated64x32 90)
        = .ok ((rotated64x32 90).store 0 (.surface
            { width := 64, height := 32, calls := [.SetPixel 0 31 170 85 255] })) := by
  refine ⟨?_, ?_, ?_, ?_, ?_⟩
  · simpa using (C1_rotate_SetPixel 0 (rotated64x32 180) 1 0 180 64 32 [] 0 0 170 85 255
      rfl rfl).2.2.1 rfl
  · simpa using (C1_rotate_SetPixel 0 (rotated64x32 180) 1 0 180 64 32 [] 63 31 170 85 255
      rfl rfl).2.2.1 rfl
  · simpa using (C1_rotate_SetPixel 0 (rotated64x32 180) 1 0 180 64 32 [] 32 16 170 85 255
      rfl rfl).2.2.1 rfl
  · simpa using (C1_rotate_SetPixel 0 (rotated64x32 90) 1 0 90 64 32 [] 0 0 170 85 255
      rfl rfl).2.1 rfl
  · simpa using (C1_rotate_SetPixel 0 (rotated64x32 90) 1 0 90 64 32 [] 31 63 170 85 255
      rfl rfl).2.1 rfl

/-! ## C2: rotation, the stored angle -/

/-- C2 (failing input). The angle -450 is a multiple of 90 and passes the
`assert`, but `SetAngle(-450)`, on an existing canvas or from the constructor,
stores `(-450 + 360) % 360 = -90`, which is none of 0, 90, 180, 270; with
that stored angle `SetPixel` matches no case of the `switch` and forwards
nothing to the surface the canvas is bound to. -/
theorem C2_angle_neg450_stored_as_neg90 :
    (90 : Int) ∣ -450
    ∧ RotateTransformer.TransformCanvas.SetAngle 1 (-450) (rotated64x32 0)
        = .ok ((rotated64x32 0).store 1 (.rotate { delegatee_ := some 0, angle_ := -90 }))
    ∧ RotateTransformer.ctor (-450) 1 Heap.empty
        = .ok ({ angle_ := -450, canvas_ := 1 },
            (Heap.empty.store 1 (.rotate { delegatee_ := none, angle_ := 0 })).store 1
              (.rotate { delegatee_ := none, angle_ := -90 }))
    ∧ (Canvas.virt 2).SetPixel (some 1) 0 0 170 85 255
          ((rotated64x32 0).store 1 (.rotate { delegatee_ := some 0, angle_ := -90 }))
        = .ok ((rotated64x32 0).store 1 (.rotate { delegatee_ := some 0, angle_ := -90 })) := by
  refine ⟨by decide, ?_, ?_, ?_⟩
  · rfl
  · rfl
  · rfl

/-! ## C3: U-arrangement, pixel mapping -/

/-- C3. Let a U-arrangement stage with `p >= 1` parallel chains be bound
successfully to a recording surface of width `W` and height `H`, and put
`panel_height = H / p`, `slab = 2 * panel_height`, `width = (W / 64) * 32`.
For `0 <= x < width` and `0 <= y < 2 * H`, `SetPixel(x, y, colour)` on the
bound surface ends as exactly one `SetPixel` on the inner surface, colour
unchanged: with `base_y = (y / slab) * panel_height` and `y' = y mod slab`,
at `(x + W / 2, base_y + y')` when `y' < panel_height` and at
`(width - x - 1, base_y + (slab - y' - 1))` otherwise. -/
theorem C3_uarrangement_SetPixel (k n : Nat) (h0 h : Heap) (T : UArrangementTransformer)
    (d : Nat) (s0 : UArrangementTransformer.TransformCanvas) (W H p : Int)
    (calls : List Call) (out : Ptr) (x y : Int) (r g b : Fin 256)
    (hc : h0 T.canvas_ = some (.uarrangement s0)) (hp : s0.parallel_ = p) (hp1 : 1 ≤ p)
    (hd : h0 d = some (.surface { width := W, height := H, calls := calls }))
    (hbind : T.Transform (Canvas.virt k) (some d) h0 = .ok (out, h))
    (hx0 : 0 ≤ x) (hx1 : x < W / 64 * 32) (hy0 : 0 ≤ y) (hy1 : y < 2 * H) :
    (y % (2 * (H / p)) < H / p →
      (Canvas.virt (n + 2)).SetPixel out x y r g b h
        = .ok (h.store d (.surface
            { width := W, height := H,
              calls := calls ++ [.SetPixel (x + W / 2)
                (y / (2 * (H / p)) * (H / p) + y % (2 * (H / p))) r g b] })))
    ∧ (¬ y % (2 * (H / p)) < H / p →
      (Canvas.virt (n + 2)).SetPixel out x y r g b h
        = .ok (h.store d (.surface
            { width := W, height := H,
              calls := calls ++ [.SetPixel (W / 64 * 32 - x - 1)
                (y / (2 * (H / p)) * (H / p) + (2 * (H / p) - y % (2 * (H / p)) - 1))
                r g b] }))) := by
  obtain ⟨hdvd, hout, hh⟩ :=
    UArrangement_bound_state k h0 h T d s0 W H p calls out hc hp hp1 hd hbind
  have hne : d ≠ T.canvas_ := ne_of_objs hd hc (by simp)
  have hc1 : h T.canvas_ = some (.uarrangement
      { parallel_ := p, width_ := W.tdiv 64 * 32, height_ := 2 * H,
        panel_height_ := H / p, delegatee_ := some d }) := by
    rw [hh, Heap.store_same]
  have hd1 : h d = some (.surface { width := W, height := H, calls := calls }) := by
    rw [hh, Heap.store_other _ _ hne, hd]
  subst hout
  exact UArrangement_SetPixel_in_range n h T.canvas_ d W H p calls x y r g b hc1 hd1 hp1 hdvd
    hx0 hx1 hy0 hy1

/-- C3 for one parallel chain on the inner 128x32 surface: (0, 0) goes to
(64, 0) and (0, 40) goes to (63, 23). -/
theorem C3_uarrangement_SetPixel_witness :
    (Canvas.virt 2).SetPixel (some 1) 0 0 170 85 255 boundU128x32
        = .ok (boundU128x32.store 0 (.surface
            { width := 128, height := 32, calls := [.SetPixel 64 0 170 85 255] }))
    ∧ (Canvas.virt 2).SetPixel (some 1) 0 40 170 85 255 boundU128x32
        = .ok (boundU128x32.store 0 (.surface
            { width := 128, height := 32, calls := [.SetPixel 63 23 170 85 255] })) :=
  ⟨(C3_uarrangement_SetPixel 1 0 (surfaceWithU 128 32 1) boundU128x32 { canvas_ := 1 } 0
      { parallel_ := 1, width_ := 0, height_ := 0, panel_height_ := 0, delegatee_ := none }
      128 32 1 [] (some 1) 0 0 170 85 255 rfl rfl (by decide) rfl surfaceWithU_bind_128x32
      (by decide) (by decide) (by decide) (by decide)).1 (by decide),
   (C3_uarrangement_SetPixel 1 0 (surfaceWithU 128 32 1) boundU128x32 { canvas_ := 1 } 0
      { parallel_ := 1, width_ := 0, height_ := 0, panel_height_ := 0, delegatee_ := none }
      128 32 1 [] (some 1) 0 40 170 85 255 rfl rfl (by decide) rfl surfaceWithU_bind_128x32
      (by decide) (by decide) (by decide) (by decide)).2 (by decide)⟩

/-! ## C4: rotation, reported size -/

/-- C4. A rotation canvas with stored angle `a` bound to a surface of width
`W` and height `H`: when `a` is 90 or 270, `width()` is `H` and `height()` is
`W`; when `a` is 0 or 180, `width()` is `W` and `height()` is `H`. -/
theorem C4_rotate_width_height (n : Nat) (h : Heap) (c d : Nat) (a W H : Int)
    (calls : List Call)
    (hc : h c = some (.rotate { delegatee_ := some d, angle_ := a }))
    (hd : h d = some (.surface { width := W, height := H, calls := calls })) :
    (a = 90 ∨ a = 270 →
      (Canvas.virt (n + 2)).width (some c) h = .ok H
        ∧ (Canvas.virt (n + 2)).height (some c) h = .ok W)
    ∧ (a = 0 ∨ a = 180 →
      (Canvas.virt (n + 2)).width (some c) h = .ok W
        ∧ (Canvas.virt (n + 2)).height (some c) h = .ok H) := by
  rw [show n + 2 = (n + 1) + 1 from rfl, virt_width_rotate (n + 1) h c _ hc,
    virt_height_rotate (n + 1) h c _ hc]
  have t0 : Int.tmod 0 180 = 0 := by decide
  have t90 : Int.tmod 90 180 = 90 := by decide
  have t180 : Int.tmod 180 180 = 0 := by decide
  have t270 : Int.tmod 270 180 = 90 := by decide
  constructor <;> rintro (ha | ha) <;> subst ha <;>
    simp [RotateTransformer.TransformCanvas.width, RotateTransformer.TransformCanvas.height,
      virt_width_surface n h d _ hd, virt_height_surface n h d _ hd, t0, t90, t180, t270]

/-- C4 on the inner 64x32 surface: at 90 the outer surface is 32 wide and 64
high, at 180 it is 64 wide and 32 high. -/
theorem C4_rotate_width_height_witness :
    ((Canvas.virt 2).width (some 1) (rotated64x32 90) = .ok 32
      ∧ (Canvas.virt 2).height (some 1) (rotated64x32 90) = .ok 64)
    ∧ ((Canvas.virt 2).width (some 1) (rotated64x32 180) = .ok 64
      ∧ (Canvas.virt 2).height (some 1) (rotated64x32 180) = .ok 32) :=
  ⟨(C4_rotate_width_height 0 (rotated64x32 90) 1 0 90 64 32 [] rfl rfl).1 (Or.inl rfl),
   (C4_rotate_width_height 0 (rotated64x32 180) 1 0 180 64 32 [] rfl rfl).2 (Or.inr rfl)⟩

/-! ## C5: rotation, full turns -/

/-- C5. On any recording surface of width `W` and height `H`, binding a
pipeline of distinct rotation stages whose stored angles are 90 then 270,
270 then 90, or 180 then 180, or four distinct stages of 90 each, succeeds,
and on the outermost surface `SetPixel(x, y, colour)`, for arbitrary integers
`x`, `y`, ends as exactly one `SetPixel(x, y, colour)` on the inner surface,
while `width()` and `height()` are `W` and `H`. -/
theorem C5_full_turn_is_identity (V : Canvas) (n : Nat) (h : Heap) (d : Nat) (W H : Int)
    (calls : List Call) (x y : Int) (r g b : Fin 256)
    (hd : h d = some (.surface { width := W, height := H, calls := calls })) :
    (∀ (t1 t2 : RotateTransformer) (s1 s2 : RotateTransformer.TransformCanvas),
      t1.canvas_ ≠ t2.canvas_ →
      h t1.canvas_ = some (.rotate s1) → h t2.canvas_ = some (.rotate s2) →
      (s1.angle_ = 90 ∧ s2.angle_ = 270 ∨ s1.angle_ = 270 ∧ s2.angle_ = 90
        ∨ s1.angle_ = 180 ∧ s2.angle_ = 180) →
      ∃ out hb,
        LinkedTransformer.Transform V { list_ := [.Rotate t1, .Rotate t2] } (some d) h
          = .ok (out, hb)
        ∧ (Canvas.virt (n + 3)).SetPixel out x y r g b hb
          = .ok (hb.store d (.surface
              { width := W, height := H, calls := calls ++ [.SetPixel x y r g b] }))
        ∧ (Canvas.virt (n + 3)).width out hb = .ok W
        ∧ (Canvas.virt (n + 3)).height out hb = .ok H)
    ∧ (∀ (t1 t2 t3 t4 : RotateTransformer) (s1 s2 s3 s4 : RotateTransformer.TransformCanvas),
      [t1.canvas_, t2.canvas_, t3.canvas_, t4.canvas_].Nodup →
      h t1.canvas_ = some (.rotate s1) → h t2.canvas_ = some (.rotate s2) →
      h t3.canvas_ = some (.rotate s3) → h t4.canvas_ = some (.rotate s4) →
      s1.angle_ = 90 → s2.angle_ = 90 → s3.angle_ = 90 → s4.angle_ = 90 →
      ∃ out hb,
        LinkedTransformer.Transform V
            { list_ := [.Rotate t1, .Rotate t2, .Rotate t3, .Rotate t4] } (some d) h
          = .ok (out, hb)
        ∧ (Canvas.virt (n + 5)).SetPixel out x y r g b hb
          = .ok (hb.store d (.surface
              { width := W, height := H, calls := calls ++ [.SetPixel x y r g b] }))
        ∧ (Canvas.virt (n + 5)).width out hb = .ok W
        ∧ (Canvas.virt (n + 5)).height out hb = .ok H) := by
  have ex : W - (W - x - 1) - 1 = x := by omega
  have ey : H - (H - y - 1) - 1 = y := by omega
  have ez : W - (H - (H - y - 1) - 1) - 1 = W - y - 1 := by omega
  constructor
  · intro t1 t2 s1 s2 hne h1 h2 ha
    obtain ⟨hb, hT, e0, e1, e2⟩ :=
      Linked_Transform_rotate2 V h d _ t1 t2 s1 s2 hd hne h1 h2
    refine ⟨_, hb, hT, ?_⟩
    have F0 := Forwards.surface n hb d _ e0
    have F1 := Forwards.rotate (n + 1) hb _ _ _ d _ _ _ _ e1 F0
    rcases ha with ⟨a1, a2⟩ | ⟨a1, a2⟩ | ⟨a1, a2⟩
    · obtain ⟨hw, hh, hs⟩ :=
        (Forwards.rotate (n + 2) hb _ _ _ d _ _ _ _ e2 (F1.2.1 a1)).2.2.2 a2
      refine ⟨?_, hw, hh⟩
      rw [hs x y r g b]
      simp [ex, ey]
    · obtain ⟨hw, hh, hs⟩ :=
        (Forwards.rotate (n + 2) hb _ _ _ d _ _ _ _ e2 (F1.2.2.2 a1)).2.1 a2
      refine ⟨?_, hw, hh⟩
      rw [hs x y r g b]
      simp [ex, ey]
    · obtain ⟨hw, hh, hs⟩ :=
        (Forwards.rotate (n + 2) hb _ _ _ d _ _ _ _ e2 (F1.2.2.1 a1)).2.2.1 a2
      refine ⟨?_, hw, hh⟩
      rw [hs x y r g b]
      simp [ex, ey]
  · intro t1 t2 t3 t4 s1 s2 s3 s4 hnd h1 h2 h3 h4 a1 a2 a3 a4
    obtain ⟨hb, hT, e0, e1, e2, e3, e4⟩ :=
      Linked_Transform_rotate4 V h d _ t1 t2 t3 t4 s1 s2 s3 s4 hd hnd h1 h2 h3 h4
    refine ⟨_, hb, hT, ?_⟩
    have F0 := Forwards.surface n hb d _ e0
    have F1 := (Forwards.rotate (n + 1) hb _ _ _ d _ _ _ _ e1 F0).2.1 a1
    have F2 := (Forwards.rotate (n + 2) hb _ _ _ d _ _ _ _ e2 F1).2.1 a2
    have F3 := (Forwards.rotate (n + 3) hb _ _ _ d _ _ _ _ e3 F2).2.1 a3
    obtain ⟨hw, hh, hs⟩ := (Forwards.rotate (n + 4) hb _ _ _ d _ _ _ _ e4 F3).2.1 a4
    refine ⟨?_, hw, hh⟩
    rw [hs x y r g b]
    simp [ex, ey, ez]

/-- C5 on the inner 64x32 surface, with the pipelines [Rot(90), Rot(270)] and
four times Rot(90), at pixel (5, 7). -/
theorem C5_full_turn_is_identity_witness :
    (∃ out hb,
      LinkedTransformer.Transform (Canvas.virt 0)
          { list_ := [.Rotate { angle_ := 90, canvas_ := 1 },
                      .Rotate { angle_ := 270, canvas_ := 2 }] }
          (some 0) (stages64x32 90 270 90 90) = .ok (out, hb)
        ∧ (Canvas.virt 3).SetPixel out 5 7 170 85 255 hb
          = .ok (hb.store 0 (.surface
              { width := 64, height := 32, calls := [] ++ [.SetPixel 5 7 170 85 255] }))
        ∧ (Canvas.virt 3).width out hb = .ok 64
        ∧ (Canvas.virt 3).height out hb = .ok 32)
    ∧ (∃ out hb,
      LinkedTransformer.Transform (Canvas.virt 0)
          { list_ := [.Rotate { angle_ := 90, canvas_ := 1 },
                      .Rotate { angle_ := 90, canvas_ := 2 },
                      .Rotate { angle_ := 90, canvas_ := 3 },
                      .Rotate { angle_ := 90, canvas_ := 4 }] }
          (some 0) (stages64x32 90 90 90 90) = .ok (out, hb)
        ∧ (Canvas.virt 5).SetPixel out 5 7 170 85 255 hb
          = .ok (hb.store 0 (.surface
              { width := 64, height := 32, calls := [] ++ [.SetPixel 5 7 170 85 255] }))
        ∧ (Canvas.virt 5).width out hb = .ok 64
        ∧ (Canvas.virt 5).height out hb = .ok 32) :=
  ⟨(C5_full_turn_is_identity (Canvas.virt 0) 0 (stages64x32 90 270 90 90) 0 64 32 [] 5 7
      170 85 255 rfl).1 { angle_ := 90, canvas_ := 1 } { angle_ := 270, canvas_ := 2 }
      { delegatee_ := none, angle_ := 90 } { delegatee_ := none, angle_ := 270 }
      (by decide) rfl rfl (Or.inl ⟨rfl, rfl⟩),
   (C5_full_turn_is_identity (Canvas.virt 0) 0 (stages64x32 90 90 90 90) 0 64 32 [] 5 7
      170 85 255 rfl).2 { angle_ := 90, canvas_ := 1 } { angle_ := 90, canvas_ := 2 }
      { angle_ := 90, canvas_ := 3 } { angle_ := 90, canvas_ := 4 }
      { delegatee_ := none, angle_ := 90 } { delegatee_ := none, angle_ := 90 }
      { delegatee_ := none, angle_ := 90 } { delegatee_ := none, angle_ := 90 }
      (by decide) rfl rfl rfl rfl rfl rfl rfl rfl⟩

/-! ## C6: U-arrangement, bounds check -/

/-- C6. For a U-arrangement canvas, whatever it is bound to, with `w` and
`ht` the values its `width()` and `height()` return: a `SetPixel(x, y, ...)`
with `x < 0`, `x >= w`, `y < 0` or `y >= ht` returns with the heap exactly as
it was (no call reaches any surface and the canvas keeps its state); hence a
`SetPixel` that changes anything has `0 <= x < w` and `0 <= y < ht`. -/
theorem C6_uarrangement_out_of_range (n : Nat) (h : Heap) (c : Nat)
    (s : UArrangementTransformer.TransformCanvas) (x y w ht : Int) (r g b : Fin 256)
    (hc : h c = some (.uarrangement s))
    (hw : (Canvas.virt (n + 1)).width (some c) h = .ok w)
    (hh : (Canvas.virt (n + 1)).height (some c) h = .ok ht) :
    (x < 0 ∨ x ≥ w ∨ y < 0 ∨ y ≥ ht →
      (Canvas.virt (n + 1)).SetPixel (some c) x y r g b h = .ok h)
    ∧ ((Canvas.virt (n + 1)).SetPixel (some c) x y r g b h ≠ .ok h →
      0 ≤ x ∧ x < w ∧ 0 ≤ y ∧ y < ht) := by
  have hw1 : s.width_ = w := by
    simpa [Canvas.virt, hc, UArrangementTransformer.TransformCanvas.width] using hw
  have hh1 : s.height_ = ht := by
    simpa [Canvas.virt, hc, UArrangementTransformer.TransformCanvas.height] using hh
  have key : (x < 0 ∨ x ≥ w ∨ y < 0 ∨ y ≥ ht) →
      (Canvas.virt (n + 1)).SetPixel (some c) x y r g b h = .ok h := by
    intro hout
    simp [Canvas.virt, hc, UArrangementTransformer.TransformCanvas.SetPixel, hw1, hh1, hout]
  refine ⟨key, ?_⟩
  intro hne
  by_contra hcon
  apply hne
  apply key
  omega

/-- C6 on the U-arrangement bound to the inner 128x32 surface (logical
64x64): the write at (64, 0) is dropped. -/
theorem C6_uarrangement_out_of_range_witness :
    (Canvas.virt 1).SetPixel (some 1) 64 0 170 85 255 boundU128x32 = .ok boundU128x32 :=
  (C6_uarrangement_out_of_range 0 boundU128x32 1
    { parallel_ := 1, width_ := 64, height_ := 64, panel_height_ := 32, delegatee_ := some 0 }
    64 0 64 64 170 85 255 rfl rfl rfl).1 (by decide)

/-! ## C7: U-arrangement, size after binding -/

/-- C7. After a U-arrangement stage with `p >= 1` parallel chains has been
bound successfully to a surface of width `W` and height `H` (the width of a
surface being a number of pixels, `W >= 0`), the bound surface reports
`width() = floor(W / 64) * 32` and `height() = 2 * H`, and it uses the panel
height `H / p`. -/
theorem C7_uarrangement_bound_size (k n : Nat) (h0 h : Heap) (T : UArrangementTransformer)
    (d : Nat) (s0 : UArrangementTransformer.TransformCanvas) (W H p : Int)
    (calls : List Call) (out : Ptr)
    (hc : h0 T.canvas_ = some (.uarrangement s0)) (hp : s0.parallel_ = p) (hp1 : 1 ≤ p)
    (hd : h0 d = some (.surface { width := W, height := H, calls := calls }))
    (hW : 0 ≤ W)
    (hbind : T.Transform (Canvas.virt k) (some d) h0 = .ok (out, h)) :
    (Canvas.virt (n + 1)).width out h = .ok (W / 64 * 32)
    ∧ (Canvas.virt (n + 1)).height out h = .ok (2 * H)
    ∧ h T.canvas_ = some (.uarrangement
        { parallel_ := p, width_ := W / 64 * 32, height_ := 2 * H,
          panel_height_ := H / p, delegatee_ := some d }) := by
  obtain ⟨_, hwf, hh, hs⟩ :=
    UArrangement_bound_size k n h0 h T d s0 W H p calls out hc hp hp1 hd hbind
  rw [Int.tdiv_eq_ediv hW (by omega)] at hs
  exact ⟨hwf hW, hh, hs⟩

/-- C7 for one parallel chain on the inner 128x32 surface: width 64, height
64, panel height 32. -/
theorem C7_uarrangement_bound_size_witness :
    (Canvas.virt 1).width (some 1) boundU128x32 = .ok 64
    ∧ (Canvas.virt 1).height (some 1) boundU128x32 = .ok 64
    ∧ boundU128x32 1 = some (.uarrangement
        { parallel_ := 1, width_ := 64, height_ := 64, panel_height_ := 32,
          delegatee_ := some 0 }) :=
  C7_uarrangement_bound_size 1 0 (surfaceWithU 128 32 1) boundU128x32 { canvas_ := 1 } 0
    { parallel_ := 1, width_ := 0, height_ := 0, panel_height_ := 0, delegatee_ := none }
    128 32 1 [] (some 1) rfl rfl (by decide) rfl (by decide)
    surfaceWithU_bind_128x32

/-! ## C8: U-arrangement, when binding is fatal -/

/-- C8. Binding a U-arrangement stage with `p >= 1` parallel chains to a
surface of width `W` and height `H` ends in a failed `assert` exactly when
`p` does not divide `H`.  When `p` divides `H` the binding succeeds whatever
`W` is, multiple of 64 or not, and the returned surface is `2 * H` high and,
the width of a surface being a number of pixels (`W >= 0`),
`floor(W / 64) * 32` wide. -/
theorem C8_uarrangement_bind_fatal_iff (k n : Nat) (h0 : Heap) (T : UArrangementTransformer)
    (d : Nat) (s0 : UArrangementTransformer.TransformCanvas) (W H p : Int)
    (calls : List Call)
    (hc : h0 T.canvas_ = some (.uarrangement s0)) (hp : s0.parallel_ = p) (hp1 : 1 ≤ p)
    (hd : h0 d = some (.surface { width := W, height := H, calls := calls })) :
    (T.Transform (Canvas.virt (k + 1)) (some d) h0 = .error .assert_failed ↔ ¬ p ∣ H)
    ∧ (p ∣ H → ∃ hb,
        T.Transform (Canvas.virt (k + 1)) (some d) h0 = .ok (some T.canvas_, hb)
        ∧ (0 ≤ W → (Canvas.virt (n + 1)).width (some T.canvas_) hb = .ok (W / 64 * 32))
        ∧ (Canvas.virt (n + 1)).height (some T.canvas_) hb = .ok (2 * H)) := by
  have hp0 : p ≠ 0 := by omega
  have hT := UArrangement_Transform_surface k h0 T d s0 W H calls hc hd
  rw [hp] at hT
  constructor
  · rw [hT]
    by_cases hm : H.tmod p = 0
    · have hdvd : p ∣ H := Int.dvd_of_tmod_eq_zero hm
      simp [hp0, hm, hdvd]
    · have hdvd : ¬ p ∣ H := fun e => hm (Int.tmod_eq_zero_of_dvd e)
      simp [hp0, hm, hdvd]
  · intro hdvd
    have hm : H.tmod p = 0 := Int.tmod_eq_zero_of_dvd hdvd
    have hok : T.Transform (Canvas.virt (k + 1)) (some d) h0
        = .ok (some T.canvas_, h0.store T.canvas_ (.uarrangement
          { parallel_ := p, width_ := W.tdiv 64 * 32, height_ := 2 * H,
            panel_height_ := H.tdiv p, delegatee_ := some d })) := by
      rw [hT]; simp [hp0, hm]
    refine ⟨_, hok, ?_⟩
    obtain ⟨_, hwf, hh, _⟩ :=
      UArrangement_bound_size (k + 1) n h0 _ T d s0 W H p calls _ hc hp hp1 hd hok
    exact ⟨hwf, hh⟩

/-- C8 on an inner surface of width 100 (not a multiple of 64) and height 32:
with 3 parallel chains binding is fatal, with 2 it succeeds and the surface is
32 wide and 64 high. -/
theorem C8_uarrangement_bind_fatal_iff_witness :
    (UArrangementTransformer.Transform (Canvas.virt 1) { canvas_ := 1 } (some 0)
        (surfaceWithU 100 32 3) = .error .assert_failed)
    ∧ (∃ hb,
        UArrangementTransformer.Transform (Canvas.virt 1) { canvas_ := 1 } (some 0)
          (surfaceWithU 100 32 2) = .ok (some 1, hb)
        ∧ ((0 : Int) ≤ 100 → (Canvas.virt 1).width (some 1) hb = .ok 32)
        ∧ (Canvas.virt 1).height (some 1) hb = .ok 64) :=
  ⟨(C8_uarrangement_bind_fatal_iff 0 0 (surfaceWithU 100 32 3) { canvas_ := 1 } 0
      { parallel_ := 3, width_ := 0, height_ := 0, panel_height_ := 0, delegatee_ := none }
      100 32 3 [] rfl rfl (by decide) rfl).1.2 (by decide),
   (C8_uarrangement_bind_fatal_iff 0 0 (surfaceWithU 100 32 2) { canvas_ := 1 } 0
      { parallel_ := 2, width_ := 0, height_ := 0, panel_height_ := 0, delegatee_ := none }
      100 32 2 [] rfl rfl (by decide) rfl).2 (by decide)⟩

/-! ## C9: rotation, when the angle is fatal -/

/-- C9. Constructing a rotation stage with `angle` ends in a failed `assert`
exactly when `angle` is not a multiple of 90, and succeeds for every multiple
of 90; the same holds for `SetAngle(angle)` on an existing rotation stage. -/
theorem C9_rotate_angle_fatal_iff (angle : Int) (a : Nat) (h : Heap) (t : RotateTransformer)
    (s : RotateTransformer.TransformCanvas) (ht : h t.canvas_ = some (.rotate s)) :
    (RotateTransformer.ctor angle a h = .error .assert_failed ↔ ¬ 90 ∣ angle)
    ∧ (90 ∣ angle → ∃ res, RotateTransformer.ctor angle a h = .ok res)
    ∧ (t.SetAngle angle h = .error .assert_failed ↔ ¬ 90 ∣ angle)
    ∧ (90 ∣ angle → ∃ res, t.SetAngle angle h = .ok res) := by
  by_cases hd : 90 ∣ angle
  · have hm : angle.tmod 90 = 0 := (tmod_eq_zero_iff_dvd angle 90).2 hd
    simp [RotateTransformer.ctor, RotateTransformer.TransformCanvas.ctor,
      RotateTransformer.SetAngle, RotateTransformer.TransformCanvas.SetAngle, hm, hd, ht,
      Heap.store_same, bind, Except.bind]
  · have hm : angle.tmod 90 ≠ 0 := fun e => hd ((tmod_eq_zero_iff_dvd angle 90).1 e)
    simp [RotateTransformer.ctor, RotateTransformer.TransformCanvas.ctor,
      RotateTransformer.SetAngle, RotateTransformer.TransformCanvas.SetAngle, hm, hd,
      bind, Except.bind]

/-- C9 at angle 45 (fatal, both ways) and at the multiples -90 and 450
(accepted). -/
theorem C9_rotate_angle_fatal_iff_witness :
    RotateTransformer.ctor 45 2 (rotated64x32 0) = .error .assert_failed
    ∧ RotateTransformer.SetAngle { angle_ := 0, canvas_ := 1 } 45 (rotated64x32 0)
        = .error .assert_failed
    ∧ (∃ res, RotateTransformer.ctor (-90) 2 (rotated64x32 0) = .ok res)
    ∧ (∃ res, RotateTransformer.SetAngle { angle_ := 0, canvas_ := 1 } 450 (rotated64x32 0)
        = .ok res) :=
  ⟨(C9_rotate_angle_fatal_iff 45 2 (rotated64x32 0) { angle_ := 0, canvas_ := 1 }
      { delegatee_ := some 0, angle_ := 0 } rfl).1.2 (by decide),
   (C9_rotate_angle_fatal_iff 45 2 (rotated64x32 0) { angle_ := 0, canvas_ := 1 }
      { delegatee_ := some 0, angle_ := 0 } rfl).2.2.1.2 (by decide),
   (C9_rotate_angle_fatal_iff (-90) 2 (rotated64x32 0) { angle_ := 0, canvas_ := 1 }
      { delegatee_ := some 0, angle_ := 0 } rfl).2.1 (by decide),
   (C9_rotate_angle_fatal_iff 450 2 (rotated64x32 0) { angle_ := 0, canvas_ := 1 }
      { delegatee_ := some 0, angle_ := 0 } rfl).2.2.2 (by decide)⟩

/-! ## C10: binding to NULL -/

/-- C10. Whatever the stage (rotation, U-arrangement, legacy composite
preset, MyNewTransformer) and whatever the heap, `Transform(NULL)` ends in a
failed `assert`: no surface is returned and no heap with `NULL` installed as
delegatee results. -/
theorem C10_null_bind_fatal (V : Canvas) (T : CanvasTransformer) (h : Heap) :
    T.Transform V none h = .error .assert_failed := by
  cases T <;>
    simp [CanvasTransformer.Transform, RotateTransformer.Transform,
      UArrangementTransformer.Transform, LargeSquare64x64Transformer.Transform,
      MyNewTransformer.Transform, bind, Except.bind]

/-! ## Further facts: pipelines, whole-surface calls, bijections, the legacy preset -/

/-- The loop of `LinkedTransformer::Transform` over a concatenation runs the
first part, then the second part on what the first returned. -/
theorem Linked_loop_append (V : Canvas) (xs ys : List CanvasTransformer) (c : Ptr) (h : Heap) :
    LinkedTransformer.Transform.loop V (xs ++ ys) c h
      = (LinkedTransformer.Transform.loop V xs c h).bind
          (fun r => LinkedTransformer.Transform.loop V ys r.1 r.2) := by
  induction xs generalizing c h with
  | nil => simp [LinkedTransformer.Transform.loop, Except.bind]
  | cons t rest ih =>
    simp only [List.cons_append, LinkedTransformer.Transform.loop, bind]
    cases t.Transform V c h with
    | error e => simp [Except.bind]
    | ok r => simp [Except.bind, ih]

/-- The loop of `LinkedTransformer::Transform` is the left fold of the stages'
`Transform` over the list. -/
theorem Linked_loop_eq_foldlM (V : Canvas) (xs : List CanvasTransformer) (c : Ptr) (h : Heap) :
    LinkedTransformer.Transform.loop V xs c h
      = xs.foldlM (fun (r : Ptr × Heap) s => s.Transform V r.1 r.2) (c, h) := by
  induction xs generalizing c h with
  | nil => simp [LinkedTransformer.Transform.loop, pure, Except.pure]
  | cons t rest ih =>
    simp only [LinkedTransformer.Transform.loop, List.foldlM_cons, bind]
    cases t.Transform V c h with
    | error e => simp [Except.bind]
    | ok r => simp [Except.bind, ih]

/-- Dispatch of `Clear` on a recording surface: the call is recorded. -/
theorem virt_Clear_surface (n : Nat) (h : Heap) (d : Nat) (s : Recorder)
    (hd : h d = some (.surface s)) :
    (Canvas.virt (n + 1)).Clear (some d) h
      = .ok (h.store d (.surface { s with calls := s.calls ++ [.Clear] })) := by
  simp [Canvas.virt, hd, Recorder.receive]

/-- Dispatch of `Fill` on a recording surface: the call is recorded. -/
theorem virt_Fill_surface (n : Nat) (h : Heap) (d : Nat) (s : Recorder)
    (r g b : Fin 256) (hd : h d = some (.surface s)) :
    (Canvas.virt (n + 1)).Fill (some d) r g b h
      = .ok (h.store d (.surface { s with calls := s.calls ++ [.Fill r g b] })) := by
  simp [Canvas.virt, hd, Recorder.receive]

/-- Dispatch of `Clear` on a rotation canvas: passed to the delegatee. -/
theorem virt_Clear_rotate (n : Nat) (h : Heap) (c : Nat)
    (s : RotateTransformer.TransformCanvas) (hc : h c = some (.rotate s)) :
    (Canvas.virt (n + 1)).Clear (some c) h = (Canvas.virt n).Clear s.delegatee_ h := by
  simp [Canvas.virt, hc, RotateTransformer.TransformCanvas.Clear]

/-- Dispatch of `Fill` on a rotation canvas: passed to the delegatee. -/
theorem virt_Fill_rotate (n : Nat) (h : Heap) (c : Nat)
    (s : RotateTransformer.TransformCanvas) (r g b : Fin 256)
    (hc : h c = some (.rotate s)) :
    (Canvas.virt (n + 1)).Fill (some c) r g b h
      = (Canvas.virt n).Fill s.delegatee_ r g b h := by
  simp [Canvas.virt, hc, RotateTransformer.TransformCanvas.Fill]

/-- Dispatch of `Clear` on a U-arrangement canvas: passed to the delegatee. -/
theorem virt_Clear_uarrangement (n : Nat) (h : Heap) (c : Nat)
    (s : UArrangementTransformer.TransformCanvas) (hc : h c = some (.uarrangement s)) :
    (Canvas.virt (n + 1)).Clear (some c) h = (Canvas.virt n).Clear s.delegatee_ h := by
  simp [Canvas.virt, hc, UArrangementTransformer.TransformCanvas.Clear]

/-- Dispatch of `Fill` on a U-arrangement canvas: passed to the delegatee. -/
theorem virt_Fill_uarrangement (n : Nat) (h : Heap) (c : Nat)
    (s : UArrangementTransformer.TransformCanvas) (r g b : Fin 256)
    (hc : h c = some (.uarrangement s)) :
    (Canvas.virt (n + 1)).Fill (some c) r g b h
      = (Canvas.virt n).Fill s.delegatee_ r g b h := by
  simp [Canvas.virt, hc, UArrangementTransformer.TransformCanvas.Fill]

/-- Whatever its state, a U-arrangement canvas in front of a recording surface
answers `SetPixel` with a fault, with nothing at all, or with exactly one
`SetPixel` of the same colour on that surface. -/
theorem UArrangement_SetPixel_shape (n : Nat) (h : Heap) (c d : Nat)
    (s : UArrangementTransformer.TransformCanvas) (rec : Recorder)
    (x y : Int) (r g b : Fin 256) (h1 : Heap)
    (hc : h c = some (.uarrangement s)) (hs : s.delegatee_ = some d)
    (hd : h d = some (.surface rec))
    (hok : (Canvas.virt (n + 2)).SetPixel (some c) x y r g b h = .ok h1) :
    h1 = h ∨ ∃ u v, h1 = h.store d (.surface
      { rec with calls := rec.calls ++ [.SetPixel u v r g b] }) := by
  rw [show n + 2 = (n + 1) + 1 from rfl, virt_SetPixel_uarrangement (n + 1) h c _ x y r g b hc]
    at hok
  unfold UArrangementTransformer.TransformCanvas.SetPixel at hok
  by_cases hout : x < 0 ∨ x ≥ s.width_ ∨ y < 0 ∨ y ≥ s.height_
  · simp only [hout, if_true, Except.ok.injEq] at hok
    exact Or.inl hok.symm
  · right
    by_cases hz : 2 * s.panel_height_ = 0
    · simp [hout, cdiv, cmod, hz, bind, Except.bind] at hok
    · by_cases hlt : y.tmod (2 * s.panel_height_) < s.panel_height_
      · simp only [hout, if_false, cdiv, cmod, hz, bind, Except.bind, hlt, if_true, hs,
          virt_width_surface n h d _ hd, virt_SetPixel_surface n h d _ _ _ _ _ _ hd,
          Except.ok.injEq] at hok
        exact ⟨_, _, hok.symm⟩
      · simp only [hout, if_false, cdiv, cmod, hz, bind, Except.bind, hlt, hs,
          virt_SetPixel_surface n h d _ _ _ _ _ _ hd, Except.ok.injEq] at hok
        exact ⟨_, _, hok.symm⟩

/-- Two stores of recording surfaces at one address that give the same heap
hold the same record. -/
theorem Heap.store_surface_inj (h : Heap) (d : Nat) (s1 s2 : Recorder)
    (he : h.store d (.surface s1) = h.store d (.surface s2)) : s1 = s2 := by
  have h1 := congrFun he d
  rw [Heap.store_same, Heap.store_same] at h1
  exact Obj.surface.inj (Option.some.inj h1)

/-- Under `Forwards`, two `SetPixel` calls with the same outcome were forwarded
to the same place. -/
theorem Forwards.target_eq {V : Canvas} {h : Heap} {p : Ptr} {d : Nat} {s : Recorder}
    {W H : Int} {f : Int → Int → Int × Int} (hf : Forwards V h p d s W H f)
    (x1 y1 x2 y2 : Int) (r g b : Fin 256)
    (he : V.SetPixel p x1 y1 r g b h = V.SetPixel p x2 y2 r g b h) :
    f x1 y1 = f x2 y2 := by
  rw [hf.2.2 x1 y1 r g b, hf.2.2 x2 y2 r g b] at he
  have h1 := Heap.store_surface_inj h d _ _ (Except.ok.inj he)
  have h2 := congrArg Recorder.calls h1
  simp only [List.append_cancel_left_eq, List.cons.injEq, Call.SetPixel.injEq, and_true] at h2
  exact Prod.ext h2.1 h2.2

/-- Equal coordinates give equal outcomes of a recorded `SetPixel`. -/
theorem SetPixel_outcome_congr (h : Heap) (d : Nat) (W H : Int) (calls : List Call)
    (r g b : Fin 256) {u v u1 v1 : Int} (hu : u = u1) (hv : v = v1) :
    (Except.ok (h.store d (.surface
        { width := W, height := H, calls := calls ++ [.SetPixel u v r g b] }))
      : Except Fault Heap)
      = .ok (h.store d (.surface
        { width := W, height := H, calls := calls ++ [.SetPixel u1 v1 r g b] })) := by
  rw [hu, hv]

/-- Whatever its stored angle, a rotation canvas in front of a recording
surface answers `SetPixel` with nothing at all or with exactly one `SetPixel`
of the same colour on that surface. -/
theorem Rotate_SetPixel_shape (n : Nat) (h : Heap) (c d : Nat) (a : Int) (rec : Recorder)
    (x y : Int) (r g b : Fin 256) (h1 : Heap)
    (hc : h c = some (.rotate { delegatee_ := some d, angle_ := a }))
    (hd : h d = some (.surface rec))
    (hok : (Canvas.virt (n + 2)).SetPixel (some c) x y r g b h = .ok h1) :
    h1 = h ∨ ∃ u v, h1 = h.store d (.surface
      { rec with calls := rec.calls ++ [.SetPixel u v r g b] }) := by
  rw [show n + 2 = (n + 1) + 1 from rfl, virt_SetPixel_rotate (n + 1) h c _ x y r g b hc]
    at hok
  unfold RotateTransformer.TransformCanvas.SetPixel at hok
  simp only [virt_width_surface n h d _ hd, virt_height_surface n h d _ hd,
    virt_SetPixel_surface n h d _ _ _ _ _ _ hd, bind, Except.bind] at hok
  split_ifs at hok <;>
    first
    | exact Or.inr ⟨_, _, (Except.ok.inj hok).symm⟩
    | exact Or.inl (Except.ok.inj hok).symm

/-- Binding a rotation stage twice leaves what the second binding alone
leaves. -/
theorem Rotate_rebind (T : RotateTransformer) (s : RotateTransformer.TransformCanvas)
    (a b : Nat) (h : Heap) (hc : h T.canvas_ = some (.rotate s)) :
    (T.Transform (some a) h).bind (fun res => T.Transform (some b) res.2)
        = .ok (some T.canvas_,
            h.store T.canvas_ (.rotate { delegatee_ := some b, angle_ := s.angle_ }))
      ∧ T.Transform (some b) h
        = .ok (some T.canvas_,
            h.store T.canvas_ (.rotate { delegatee_ := some b, angle_ := s.angle_ })) := by
  refine ⟨?_, Rotate_Transform_ok T s b h hc⟩
  rw [Rotate_Transform_ok T s a h hc]
  simp only [Except.bind]
  rw [Rotate_Transform_ok T _ b _ (Heap.store_same _ _ _), Heap.store_store]

/-- Binding a U-arrangement stage to one recording surface and then to another
leaves what binding to the second alone leaves. -/
theorem UArrangement_rebind (k : Nat) (T : UArrangementTransformer)
    (s0 : UArrangementTransformer.TransformCanvas) (a b : Nat) (ra rb : Recorder) (h : Heap)
    (hc : h T.canvas_ = some (.uarrangement s0)) (hp1 : 1 ≤ s0.parallel_)
    (ha : h a = some (.surface ra)) (hb : h b = some (.surface rb))
    (hda : s0.parallel_ ∣ ra.height) (hdb : s0.parallel_ ∣ rb.height) :
    (T.Transform (Canvas.virt (k + 1)) (some a) h).bind
          (fun res => T.Transform (Canvas.virt (k + 1)) (some b) res.2)
        = .ok (some T.canvas_, h.store T.canvas_ (.uarrangement
            { parallel_ := s0.parallel_, width_ := rb.width.tdiv 64 * 32,
              height_ := 2 * rb.height, panel_height_ := rb.height.tdiv s0.parallel_,
              delegatee_ := some b }))
      ∧ T.Transform (Canvas.virt (k + 1)) (some b) h
        = .ok (some T.canvas_, h.store T.canvas_ (.uarrangement
            { parallel_ := s0.parallel_, width_ := rb.width.tdiv 64 * 32,
              height_ := 2 * rb.height, panel_height_ := rb.height.tdiv s0.parallel_,
              delegatee_ := some b })) := by
  have hp0 : s0.parallel_ ≠ 0 := by omega
  have hma : ra.height.tmod s0.parallel_ = 0 := Int.tmod_eq_zero_of_dvd hda
  have hmb : rb.height.tmod s0.parallel_ = 0 := Int.tmod_eq_zero_of_dvd hdb
  have hbc : b ≠ T.canvas_ := ne_of_objs hb hc (by simp)
  have e2 : T.Transform (Canvas.virt (k + 1)) (some b) h
        = .ok (some T.canvas_, h.store T.canvas_ (.uarrangement
            { parallel_ := s0.parallel_, width_ := rb.width.tdiv 64 * 32,
              height_ := 2 * rb.height, panel_height_ := rb.height.tdiv s0.parallel_,
              delegatee_ := some b })) := by
    rw [UArrangement_Transform_surface k h T b s0 rb.width rb.height rb.calls hc hb]
    simp [hp0, hmb]
  refine ⟨?_, e2⟩
  rw [UArrangement_Transform_surface k h T a s0 ra.width ra.height ra.calls hc ha]
  simp only [hp0, hma, if_false, ne_eq, not_true_eq_false, Except.bind]
  rw [UArrangement_Transform_surface k _ T b _ rb.width rb.height rb.calls
    (Heap.store_same _ _ _) (by rw [Heap.store_other _ _ hbc, hb])]
  simp [hp0, hmb, Heap.store_store]

/-- In its bound state a U-arrangement canvas with `p >= 1` chains in front of
a recording surface of any width and height never faults on `SetPixel`: when
the doubled panel height is zero the write has been rejected by the bounds
check, otherwise the divisions have a non-zero divisor. -/
theorem UArrangement_SetPixel_total (n : Nat) (h : Heap) (c d : Nat) (W H p : Int)
    (calls : List Call) (x y : Int) (r g b : Fin 256)
    (hc : h c = some (.uarrangement
        { parallel_ := p, width_ := W.tdiv 64 * 32, height_ := 2 * H,
          panel_height_ := H / p, delegatee_ := some d }))
    (hd : h d = some (.surface { width := W, height := H, calls := calls }))
    (hp1 : 1 ≤ p) (hdvd : p ∣ H) :
    (∃ h1, (Canvas.virt (n + 2)).SetPixel (some c) x y r g b h = .ok h1)
    ∧ (2 * (H / p) = 0 → (Canvas.virt (n + 2)).SetPixel (some c) x y r g b h = .ok h)
    ∧ (¬ (x < 0 ∨ x ≥ W.tdiv 64 * 32 ∨ y < 0 ∨ y ≥ 2 * H) → 2 * (H / p) ≠ 0) := by
  have hmul : H / p * p = H := Int.ediv_mul_cancel hdvd
  have hpos : 0 < H → 0 < H / p := fun hH => Int.ediv_pos_of_pos_of_dvd hH (by omega) hdvd
  have hnz : ¬ (x < 0 ∨ x ≥ W.tdiv 64 * 32 ∨ y < 0 ∨ y ≥ 2 * H) →
      2 * (H / p) ≠ 0 := by
    intro hin
    have hH : 0 < H := by omega
    have := hpos hH
    omega
  rw [show n + 2 = (n + 1) + 1 from rfl, virt_SetPixel_uarrangement (n + 1) h c _ x y r g b hc]
  unfold UArrangementTransformer.TransformCanvas.SetPixel
  refine ⟨?_, ?_, hnz⟩
  · by_cases hout : x < 0 ∨ x ≥ W.tdiv 64 * 32 ∨ y < 0 ∨ y ≥ 2 * H
    · exact ⟨h, by simp only [hout, if_true]⟩
    · have hz := hnz hout
      by_cases hlt : y.tmod (2 * (H / p)) < H / p
      · simp only [hout, if_false, cdiv, cmod, hz, bind, Except.bind, hlt, if_true,
          virt_width_surface n h d _ hd, virt_SetPixel_surface n h d _ _ _ _ _ _ hd]
        exact ⟨_, rfl⟩
      · simp only [hout, if_false, cdiv, cmod, hz, bind, Except.bind, hlt,
          virt_SetPixel_surface n h d _ _ _ _ _ _ hd]
        exact ⟨_, rfl⟩
  · intro hz
    have hq : H / p = 0 := by omega
    have hH : H = 0 := by rw [← hmul, hq]; simp
    have hout : x < 0 ∨ x ≥ W.tdiv 64 * 32 ∨ y < 0 ∨ y ≥ 2 * H := by omega
    simp only [hout, if_true]

/-- Binding the one-chain U-arrangement stage to a 128-wide surface of height
`H`, for any integer `H`. -/
theorem surfaceWithU_bind_128 (H : Int) :
    UArrangementTransformer.Transform (Canvas.virt 1) { canvas_ := 1 } (some 0)
      (surfaceWithU 128 H 1)
      = .ok (some 1, (surfaceWithU 128 H 1).store 1 (.uarrangement
          { parallel_ := 1, width_ := 64, height_ := 2 * H, panel_height_ := H.tdiv 1,
            delegatee_ := some 0 })) := by
  rw [UArrangement_Transform_surface 0 (surfaceWithU 128 H 1) { canvas_ := 1 } 0
    { parallel_ := 1, width_ := 0, height_ := 0, panel_height_ := 0, delegatee_ := none }
    128 H [] rfl rfl]
  simp [Int.tmod_one]
  rfl

/-- Binding the legacy preset, whose U-arrangement canvas has one parallel
chain, to a recording surface always succeeds: the rotation canvas is handed
out, it delegates to the U-arrangement canvas, which delegates to the
surface. -/
theorem LargeSquare_Transform_surface (k : Nat) (h0 : Heap) (P : LargeSquare64x64Transformer)
    (sa : UArrangementTransformer.TransformCanvas) (sr : RotateTransformer.TransformCanvas)
    (d : Nat) (rec : Recorder)
    (hca : h0 P.arrange_.canvas_ = some (.uarrangement sa)) (hpa : sa.parallel_ = 1)
    (hcr : h0 P.rotated_.canvas_ = some (.rotate sr))
    (hd : h0 d = some (.surface rec)) :
    ∃ h, P.Transform (Canvas.virt (k + 1)) (some d) h0 = .ok (some P.rotated_.canvas_, h)
      ∧ h P.rotated_.canvas_
        = some (.rotate { delegatee_ := some P.arrange_.canvas_, angle_ := sr.angle_ })
      ∧ h P.arrange_.canvas_ = some (.uarrangement
          { parallel_ := 1, width_ := rec.width.tdiv 64 * 32, height_ := 2 * rec.height,
            panel_height_ := rec.height / 1, delegatee_ := some d })
      ∧ h d = some (.surface rec) := by
  have hne : P.rotated_.canvas_ ≠ P.arrange_.canvas_ := ne_of_objs hcr hca (by simp)
  have hda : d ≠ P.arrange_.canvas_ := ne_of_objs hd hca (by simp)
  have hdr : d ≠ P.rotated_.canvas_ := ne_of_objs hd hcr (by simp)
  have e1 := UArrangement_Transform_surface k h0 P.arrange_ d sa rec.width rec.height
    rec.calls hca hd
  rw [hpa] at e1
  simp only [one_ne_zero, if_false, Int.tmod_one, ne_eq, not_true_eq_false] at e1
  have e2 := Rotate_Transform_ok P.rotated_ sr P.arrange_.canvas_
    (h0.store P.arrange_.canvas_ (.uarrangement
      { parallel_ := 1, width_ := rec.width.tdiv 64 * 32, height_ := 2 * rec.height,
        panel_height_ := rec.height.tdiv 1, delegatee_ := some d }))
    (by rw [Heap.store_other _ _ hne, hcr])
  have hT : P.Transform (Canvas.virt (k + 1)) (some d) h0
      = P.rotated_.Transform (some P.arrange_.canvas_)
          (h0.store P.arrange_.canvas_ (.uarrangement
            { parallel_ := 1, width_ := rec.width.tdiv 64 * 32, height_ := 2 * rec.height,
              panel_height_ := rec.height.tdiv 1, delegatee_ := some d })) := by
    simp only [LargeSquare64x64Transformer.Transform, e1, bind, Except.bind]
  rw [e2] at hT
  refine ⟨_, hT, ?_, ?_, ?_⟩
  · rw [Heap.store_same]
  · rw [Heap.store_other _ _ (Ne.symm hne), Heap.store_same, Int.tdiv_one, Int.ediv_one]
  · rw [Heap.store_other _ _ hdr, Heap.store_other _ _ hda, hd]

/-- A `SetPixel` outside the logical bounds of a U-arrangement canvas returns
with the heap unchanged. -/
theorem UArrangement_SetPixel_rejected (n : Nat) (h : Heap) (c : Nat)
    (s : UArrangementTransformer.TransformCanvas) (x y : Int) (r g b : Fin 256)
    (hc : h c = some (.uarrangement s))
    (hout : x < 0 ∨ x ≥ s.width_ ∨ y < 0 ∨ y ≥ s.height_) :
    (Canvas.virt (n + 1)).SetPixel (some c) x y r g b h = .ok h := by
  simp [Canvas.virt, hc, UArrangementTransformer.TransformCanvas.SetPixel, hout]

/-- The rotation by 180 in front of the one-chain U-arrangement in front of a
recording surface whose width `W > 0` is a multiple of 64 and whose height is
`H > 0`: size and pixel mapping. -/
theorem LargeSquare_bound_behaviour (n : Nat) (h : Heap) (cr ca d : Nat) (W H : Int)
    (calls : List Call) (x y : Int) (r g b : Fin 256)
    (hr : h cr = some (.rotate { delegatee_ := some ca, angle_ := 180 }))
    (hu : h ca = some (.uarrangement
        { parallel_ := 1, width_ := W.tdiv 64 * 32, height_ := 2 * H,
          panel_height_ := H / 1, delegatee_ := some d }))
    (hd : h d = some (.surface { width := W, height := H, calls := calls }))
    (hW : 0 < W) (h64 : 64 ∣ W) (hH : 0 < H) :
    (Canvas.virt (n + 3)).width (some cr) h = .ok (W / 2)
    ∧ (Canvas.virt (n + 3)).height (some cr) h = .ok (2 * H)
    ∧ (0 ≤ x → x < W / 2 → 0 ≤ y → y < H →
        (Canvas.virt (n + 3)).SetPixel (some cr) x y r g b h
          = .ok (h.store d (.surface
              { width := W, height := H, calls := calls ++ [.SetPixel x y r g b] })))
    ∧ (0 ≤ x → x < W / 2 → H ≤ y → y < 2 * H →
        (Canvas.virt (n + 3)).SetPixel (some cr) x y r g b h
          = .ok (h.store d (.surface
              { width := W, height := H,
                calls := calls ++ [.SetPixel (W - 1 - x) (2 * H - 1 - y) r g b] })))
    ∧ (x < 0 ∨ x ≥ W / 2 ∨ y < 0 ∨ y ≥ 2 * H →
        (Canvas.virt (n + 3)).SetPixel (some cr) x y r g b h = .ok h) := by
  have t180 : Int.tmod 180 180 = 0 := by decide
  have e64 : W.tdiv 64 = W / 64 := Int.tdiv_eq_ediv (by omega) (by omega)
  have ew : W.tdiv 64 * 32 = W / 2 := by rw [e64]; omega
  have hwid : (Canvas.virt (n + 2)).width (some ca) h = .ok (W / 2) := by
    rw [virt_width_uarrangement (n + 1) h ca _ hu, ew]
  have hhei : (Canvas.virt (n + 2)).height (some ca) h = .ok (2 * H) := by
    rw [virt_height_uarrangement (n + 1) h ca _ hu]
  have hset : (Canvas.virt (n + 3)).SetPixel (some cr) x y r g b h
      = (Canvas.virt (n + 2)).SetPixel (some ca) (W / 2 - x - 1) (2 * H - y - 1) r g b h := by
    rw [show n + 3 = (n + 2) + 1 from rfl, virt_SetPixel_rotate (n + 2) h cr _ x y r g b hr]
    simp [RotateTransformer.TransformCanvas.SetPixel, hwid, hhei, bind, Except.bind]
  have hq : H / 1 = H := Int.ediv_one H
  refine ⟨?_, ?_, ?_, ?_, ?_⟩
  · rw [show n + 3 = (n + 2) + 1 from rfl, virt_width_rotate (n + 2) h cr _ hr]
    simp [RotateTransformer.TransformCanvas.width, t180, hwid]
  · rw [show n + 3 = (n + 2) + 1 from rfl, virt_height_rotate (n + 2) h cr _ hr]
    simp [RotateTransformer.TransformCanvas.height, t180, hhei]
  · intro hx0 hx1 hy0 hy1
    have hin := (UArrangement_SetPixel_in_range n h ca d W H 1 calls (W / 2 - x - 1)
      (2 * H - y - 1) r g b hu hd (by omega) (one_dvd H) (by omega) (by omega) (by omega)
      (by omega)).2
    rw [hq] at hin
    have em : (2 * H - y - 1) % (2 * H) = 2 * H - y - 1 :=
      Int.emod_eq_of_lt (by omega) (by omega)
    have ed : (2 * H - y - 1) / (2 * H) = 0 := Int.ediv_eq_zero_of_lt (by omega) (by omega)
    rw [em, ed] at hin
    rw [hset, hin (by omega)]
    exact SetPixel_outcome_congr h d W H calls r g b (by omega) (by omega)
  · intro hx0 hx1 hy0 hy1
    have hin := (UArrangement_SetPixel_in_range n h ca d W H 1 calls (W / 2 - x - 1)
      (2 * H - y - 1) r g b hu hd (by omega) (one_dvd H) (by omega) (by omega) (by omega)
      (by omega)).1
    rw [hq] at hin
    have em : (2 * H - y - 1) % (2 * H) = 2 * H - y - 1 :=
      Int.emod_eq_of_lt (by omega) (by omega)
    have ed : (2 * H - y - 1) / (2 * H) = 0 := Int.ediv_eq_zero_of_lt (by omega) (by omega)
    rw [em, ed] at hin
    rw [hset, hin (by omega)]
    exact SetPixel_outcome_congr h d W H calls r g b (by omega) (by omega)
  · intro hout
    rw [hset]
    apply UArrangement_SetPixel_rejected (n + 1) h ca _ _ _ r g b hu
    show W / 2 - x - 1 < 0 ∨ W / 2 - x - 1 ≥ W.tdiv 64 * 32 ∨ 2 * H - y - 1 < 0
      ∨ 2 * H - y - 1 ≥ 2 * H
    rw [ew]
    omega

/-- The constructor of the legacy preset yields `largeSquarePreset` and the
heap `surfaceWithLargeSquare W H`. -/
theorem LargeSquare_ctor_example (W H : Int) :
    LargeSquare64x64Transformer.ctor 1 2 0 0 0
        (Heap.empty.store 0 (.surface { width := W, height := H, calls := [] }))
      = .ok (largeSquarePreset, surfaceWithLargeSquare W H) := rfl

/-- The legacy preset binds as the pipeline of its two stages does, on every
input. -/
theorem LargeSquare_Transform_eq_pipeline (V : Canvas) (P : LargeSquare64x64Transformer)
    (c : Ptr) (h : Heap) :
    P.Transform V c h = LinkedTransformer.Transform V P.asPipeline c h := by
  simp only [LargeSquare64x64Transformer.Transform, LinkedTransformer.Transform,
    LargeSquare64x64Transformer.asPipeline, LinkedTransformer.AddTransformer,
    List.nil_append, List.cons_append, LinkedTransformer.Transform.loop,
    CanvasTransformer.Transform, bind]
  cases P.arrange_.Transform V c h with
  | error e => simp [Except.bind]
  | ok r1 =>
    simp only [Except.bind]
    cases P.rotated_.Transform r1.1 r1.2 with
    | error e => rfl
    | ok r2 => rfl

/-- A rotation canvas with stored angle 180 in front of a U-arrangement canvas
passes `SetPixel` on at the coordinates mirrored in the logical size of the
U-arrangement. -/
theorem Rotate180_over_UArrangement (n : Nat) (h : Heap) (cr ca : Nat)
    (s : UArrangementTransformer.TransformCanvas) (x y : Int) (r g b : Fin 256)
    (hr : h cr = some (.rotate { delegatee_ := some ca, angle_ := 180 }))
    (hu : h ca = some (.uarrangement s)) :
    (Canvas.virt (n + 3)).width (some cr) h = .ok s.width_
    ∧ (Canvas.virt (n + 3)).height (some cr) h = .ok s.height_
    ∧ (Canvas.virt (n + 3)).SetPixel (some cr) x y r g b h
      = UArrangementTransformer.TransformCanvas.SetPixel (Canvas.virt (n + 1)) s
          (s.width_ - x - 1) (s.height_ - y - 1) r g b h
    ∧ (Canvas.virt (n + 3)).Clear (some cr) h = (Canvas.virt (n + 1)).Clear s.delegatee_ h
    ∧ (Canvas.virt (n + 3)).Fill (some cr) r g b h
      = (Canvas.virt (n + 1)).Fill s.delegatee_ r g b h := by
  have t180 : Int.tmod 180 180 = 0 := by decide
  have hwid := virt_width_uarrangement (n + 1) h ca _ hu
  have hhei := virt_height_uarrangement (n + 1) h ca _ hu
  refine ⟨?_, ?_, ?_, ?_, ?_⟩
  · rw [show n + 3 = (n + 2) + 1 from rfl, virt_width_rotate (n + 2) h cr _ hr]
    simp [RotateTransformer.TransformCanvas.width, t180, hwid]
  · rw [show n + 3 = (n + 2) + 1 from rfl, virt_height_rotate (n + 2) h cr _ hr]
    simp [RotateTransformer.TransformCanvas.height, t180, hhei]
  · rw [show n + 3 = (n + 2) + 1 from rfl, virt_SetPixel_rotate (n + 2) h cr _ x y r g b hr]
    simp [RotateTransformer.TransformCanvas.SetPixel, hwid, hhei, bind, Except.bind,
      virt_SetPixel_uarrangement (n + 1) h ca _ _ _ r g b hu]
  · rw [show n + 3 = (n + 2) + 1 from rfl, virt_Clear_rotate (n + 2) h cr _ hr]
    exact virt_Clear_uarrangement (n + 1) h ca _ hu
  · rw [show n + 3 = (n + 2) + 1 from rfl, virt_Fill_rotate (n + 2) h cr _ r g b hr]
    exact virt_Fill_uarrangement (n + 1) h ca _ r g b hu

/-- What a U-arrangement `SetPixel` leaves on the recording surface it
delegates to depends only on the canvas fields and on that surface, not on
the rest of the heap. -/
theorem UArrangement_SetPixel_observed (n : Nat) (h h1 : Heap) (d : Nat) (rec : Recorder)
    (s : UArrangementTransformer.TransformCanvas) (x y : Int) (r g b : Fin 256)
    (hs : s.delegatee_ = some d)
    (hd : h d = some (.surface rec)) (hd1 : h1 d = some (.surface rec)) :
    (UArrangementTransformer.TransformCanvas.SetPixel (Canvas.virt (n + 1)) s x y r g b h).map
        (fun res => res d)
      = (UArrangementTransformer.TransformCanvas.SetPixel (Canvas.virt (n + 1)) s x y r g b
          h1).map (fun res => res d) := by
  unfold UArrangementTransformer.TransformCanvas.SetPixel
  by_cases hout : x < 0 ∨ x ≥ s.width_ ∨ y < 0 ∨ y ≥ s.height_
  · simp [hout, Except.map, hd, hd1]
  · by_cases hz : 2 * s.panel_height_ = 0
    · simp [hout, cdiv, cmod, hz, bind, Except.bind, Except.map]
    · by_cases hlt : y.tmod (2 * s.panel_height_) < s.panel_height_ <;>
        simp [hout, cdiv, cmod, hz, bind, Except.bind, Except.map, hlt, hs,
          virt_width_surface n h d _ hd, virt_width_surface n h1 d _ hd1,
          virt_SetPixel_surface n h d _ _ _ _ _ _ hd,
          virt_SetPixel_surface n h1 d _ _ _ _ _ _ hd1, Heap.store_same]

/-- Quotient and remainder by a positive `q` are unique. -/
theorem quot_rem_unique (q k1 r1 k2 r2 : Int)
    (h1 : 0 ≤ r1) (h1q : r1 < q) (h2 : 0 ≤ r2) (h2q : r2 < q)
    (he : k1 * q + r1 = k2 * q + r2) : k1 = k2 ∧ r1 = r2 := by
  have hk : k1 = k2 := by
    rcases lt_trichotomy k1 k2 with hlt | heq | hgt
    · have : (k2 - k1 - 1) * q ≥ 0 := mul_nonneg (by omega) (by omega)
      nlinarith
    · exact heq
    · have : (k1 - k2 - 1) * q ≥ 0 := mul_nonneg (by omega) (by omega)
      nlinarith
  subst hk
  exact ⟨rfl, by omega⟩

/-- On its logical grid the bound U-arrangement canvas forwards `(x, y)`, with
`y = 2 q k + r` for a slab number `0 <= k < p` and an offset `0 <= r < 2 q`
(`q = H / p` the panel height), to the right half at row `k q + r` when
`r < q` and to the mirrored column of the left half at row
`k q + (2 q - r - 1)` otherwise. -/
theorem UArrangement_target (n : Nat) (h : Heap) (c d : Nat) (W p q : Int)
    (calls : List Call) (x y : Int) (r g b : Fin 256)
    (hc : h c = some (.uarrangement
        { parallel_ := p, width_ := W.tdiv 64 * 32, height_ := 2 * (p * q),
          panel_height_ := q, delegatee_ := some d }))
    (hd : h d = some (.surface { width := W, height := p * q, calls := calls }))
    (hp1 : 1 ≤ p) (hq : 0 < q) (h64 : 64 ∣ W)
    (hx0 : 0 ≤ x) (hx1 : x < W / 2) (hy0 : 0 ≤ y) (hy1 : y < 2 * (p * q)) :
    ∃ k s, y = 2 * q * k + s ∧ 0 ≤ k ∧ k < p ∧ 0 ≤ s ∧ s < 2 * q
      ∧ ((s < q ∧ (Canvas.virt (n + 2)).SetPixel (some c) x y r g b h
            = .ok (h.store d (.surface
                { width := W, height := p * q,
                  calls := calls ++ [.SetPixel (x + W / 2) (k * q + s) r g b] })))
        ∨ (q ≤ s ∧ (Canvas.virt (n + 2)).SetPixel (some c) x y r g b h
            = .ok (h.store d (.surface
                { width := W, height := p * q,
                  calls := calls ++ [.SetPixel (W / 2 - x - 1) (k * q + (2 * q - s - 1))
                    r g b] })))) := by
  have hpq : p * q / p = q := Int.mul_ediv_cancel_left q (by omega)
  have hc1 : h c = some (.uarrangement
        { parallel_ := p, width_ := W.tdiv 64 * 32, height_ := 2 * (p * q),
          panel_height_ := p * q / p, delegatee_ := some d }) := by rw [hpq]; exact hc
  have hw : W / 64 * 32 = W / 2 := by omega
  have hin := UArrangement_SetPixel_in_range n h c d W (p * q) p calls x y r g b hc1 hd hp1
    (Dvd.intro q rfl) hx0 (by omega) hy0 hy1
  rw [hpq, hw] at hin
  have h2q : 0 < 2 * q := by omega
  have hk0 : 0 ≤ y / (2 * q) := Int.ediv_nonneg hy0 (by omega)
  have hk1 : y / (2 * q) < p := by
    apply Int.ediv_lt_of_lt_mul h2q
    have : p * (2 * q) = 2 * (p * q) := by ring
    omega
  have hs0 : 0 ≤ y % (2 * q) := Int.emod_nonneg y (by omega)
  have hs1 : y % (2 * q) < 2 * q := Int.emod_lt_of_pos y h2q
  have hy : y = 2 * q * (y / (2 * q)) + y % (2 * q) := (Int.ediv_add_emod y (2 * q)).symm
  refine ⟨y / (2 * q), y % (2 * q), hy, hk0, hk1, hs0, hs1, ?_⟩
  by_cases hlt : y % (2 * q) < q
  · exact Or.inl ⟨hlt, hin.1 hlt⟩
  · exact Or.inr ⟨by omega, hin.2 hlt⟩

/-- Recorded `SetPixel` outcomes that are equal were made at equal
coordinates. -/
theorem SetPixel_outcome_inj (h : Heap) (d : Nat) (W H : Int) (calls : List Call)
    (r g b : Fin 256) {u v u1 v1 : Int}
    (he : (Except.ok (h.store d (.surface
        { width := W, height := H, calls := calls ++ [.SetPixel u v r g b] }))
      : Except Fault Heap)
      = .ok (h.store d (.surface
        { width := W, height := H, calls := calls ++ [.SetPixel u1 v1 r g b] }))) :
    u = u1 ∧ v = v1 := by
  have h1 := Heap.store_surface_inj h d _ _ (Except.ok.inj he)
  have h2 := congrArg Recorder.calls h1
  simp only [List.append_cancel_left_eq, List.cons.injEq, Call.SetPixel.injEq, and_true] at h2
  exact ⟨h2.1, h2.2⟩

/-- The U-arrangement pixel mapping on a bound canvas: into the inner grid,
injective on the logical grid, and onto the inner grid. -/
theorem UArrangement_bijection (n : Nat) (h : Heap) (c d : Nat) (W p q : Int)
    (calls : List Call) (r g b : Fin 256)
    (hc : h c = some (.uarrangement
        { parallel_ := p, width_ := W.tdiv 64 * 32, height_ := 2 * (p * q),
          panel_height_ := q, delegatee_ := some d }))
    (hd : h d = some (.surface { width := W, height := p * q, calls := calls }))
    (hp1 : 1 ≤ p) (hq : 0 < q) (h64 : 64 ∣ W) :
    (∀ x y, 0 ≤ x → x < W / 2 → 0 ≤ y → y < 2 * (p * q) →
      ∃ u v, 0 ≤ u ∧ u < W ∧ 0 ≤ v ∧ v < p * q
        ∧ (Canvas.virt (n + 2)).SetPixel (some c) x y r g b h
          = .ok (h.store d (.surface
              { width := W, height := p * q, calls := calls ++ [.SetPixel u v r g b] })))
    ∧ (∀ x1 y1 x2 y2, 0 ≤ x1 → x1 < W / 2 → 0 ≤ y1 → y1 < 2 * (p * q) →
        0 ≤ x2 → x2 < W / 2 → 0 ≤ y2 → y2 < 2 * (p * q) →
        (Canvas.virt (n + 2)).SetPixel (some c) x1 y1 r g b h
          = (Canvas.virt (n + 2)).SetPixel (some c) x2 y2 r g b h →
        x1 = x2 ∧ y1 = y2)
    ∧ (∀ u v, 0 ≤ u → u < W → 0 ≤ v → v < p * q →
      ∃ x y, 0 ≤ x ∧ x < W / 2 ∧ 0 ≤ y ∧ y < 2 * (p * q)
        ∧ (Canvas.virt (n + 2)).SetPixel (some c) x y r g b h
          = .ok (h.store d (.surface
              { width := W, height := p * q, calls := calls ++ [.SetPixel u v r g b] }))) := by
  have T := fun x y hx0 hx1 hy0 hy1 =>
    UArrangement_target n h c d W p q calls x y r g b hc hd hp1 hq h64 hx0 hx1 hy0 hy1
  have hrow : ∀ k s : Int, 0 ≤ k → k < p → 0 ≤ s → s < q →
      0 ≤ k * q + s ∧ k * q + s < p * q := by
    intro k s hk0 hk1 hs0 hs1
    have h1 : 0 ≤ k * q := mul_nonneg hk0 (by omega)
    have h2 : 0 ≤ (p - k - 1) * q := mul_nonneg (by omega) (by omega)
    constructor
    · omega
    · nlinarith
  refine ⟨?_, ?_, ?_⟩
  · intro x y hx0 hx1 hy0 hy1
    obtain ⟨k, s, _, hk0, hk1, hs0, hs1, hcase⟩ := T x y hx0 hx1 hy0 hy1
    rcases hcase with ⟨hlt, e⟩ | ⟨hge, e⟩
    · have := hrow k s hk0 hk1 hs0 hlt
      exact ⟨_, _, by omega, by omega, this.1, this.2, e⟩
    · have := hrow k (2 * q - s - 1) hk0 hk1 (by omega) (by omega)
      exact ⟨_, _, by omega, by omega, this.1, this.2, e⟩
  · intro x1 y1 x2 y2 hx0 hx1 hy0 hy1 gx0 gx1 gy0 gy1 he
    obtain ⟨k1, s1, e1, _, _, a0, a1, c1⟩ := T x1 y1 hx0 hx1 hy0 hy1
    obtain ⟨k2, s2, e2, _, _, b0, b1, c2⟩ := T x2 y2 gx0 gx1 gy0 gy1
    rcases c1 with ⟨l1, o1⟩ | ⟨l1, o1⟩ <;> rcases c2 with ⟨l2, o2⟩ | ⟨l2, o2⟩
    · rw [o1, o2] at he
      obtain ⟨hu, hv⟩ := SetPixel_outcome_inj h d W (p * q) calls r g b he
      obtain ⟨hk, hs⟩ := quot_rem_unique q k1 s1 k2 s2 a0 l1 b0 l2 hv
      subst hk; subst hs
      exact ⟨by omega, by rw [e1, e2]⟩
    · rw [o1, o2] at he
      obtain ⟨hu, hv⟩ := SetPixel_outcome_inj h d W (p * q) calls r g b he
      omega
    · rw [o1, o2] at he
      obtain ⟨hu, hv⟩ := SetPixel_outcome_inj h d W (p * q) calls r g b he
      omega
    · rw [o1, o2] at he
      obtain ⟨hu, hv⟩ := SetPixel_outcome_inj h d W (p * q) calls r g b he
      obtain ⟨hk, hs⟩ := quot_rem_unique q k1 (2 * q - s1 - 1) k2 (2 * q - s2 - 1)
        (by omega) (by omega) (by omega) (by omega) hv
      subst hk
      have : s1 = s2 := by omega
      subst this
      exact ⟨by omega, by rw [e1, e2]⟩
  · intro u v hu0 hu1 hv0 hv1
    have hk0 : 0 ≤ v / q := Int.ediv_nonneg hv0 (by omega)
    have hk1 : v / q < p := Int.ediv_lt_of_lt_mul hq hv1
    have hs0 : 0 ≤ v % q := Int.emod_nonneg v (by omega)
    have hs1 : v % q < q := Int.emod_lt_of_pos v hq
    have hv : v / q * q + v % q = v := by
      have := Int.ediv_add_emod v q
      linarith [mul_comm q (v / q)]
    have hbig : ∀ s : Int, 0 ≤ s → s < 2 * q →
        0 ≤ 2 * q * (v / q) + s ∧ 2 * q * (v / q) + s < 2 * (p * q) := by
      intro s hs hs2
      have h1 : 0 ≤ q * (v / q) := mul_nonneg (by omega) hk0
      have h2 : 0 ≤ (p - v / q - 1) * q := mul_nonneg (by omega) (by omega)
      constructor
      · nlinarith
      · nlinarith
    by_cases hhalf : W / 2 ≤ u
    · have hy := hbig (v % q) hs0 (by omega)
      obtain ⟨k, s, e, _, _, s0, s1, cs⟩ := T (u - W / 2) (2 * q * (v / q) + v % q)
        (by omega) (by omega) hy.1 hy.2
      obtain ⟨hk, hs⟩ := quot_rem_unique (2 * q) (v / q) (v % q) k s hs0 (by omega) s0 s1
        (by linarith)
      subst hk; subst hs
      refine ⟨u - W / 2, 2 * q * (v / q) + v % q, by omega, by omega, hy.1, hy.2, ?_⟩
      rcases cs with ⟨_, o⟩ | ⟨l, _⟩
      · rw [o]
        exact SetPixel_outcome_congr h d W (p * q) calls r g b (by omega) hv
      · omega
    · have hy := hbig (2 * q - v % q - 1) (by omega) (by omega)
      obtain ⟨k, s, e, _, _, s0, s1, cs⟩ := T (W / 2 - u - 1)
        (2 * q * (v / q) + (2 * q - v % q - 1)) (by omega) (by omega) hy.1 hy.2
      obtain ⟨hk, hs⟩ := quot_rem_unique (2 * q) (v / q) (2 * q - v % q - 1) k s (by omega)
        (by omega) s0 s1 (by linarith)
      subst hk; subst hs
      refine ⟨W / 2 - u - 1, 2 * q * (v / q) + (2 * q - v % q - 1), by omega, by omega,
        hy.1, hy.2, ?_⟩
      rcases cs with ⟨l, _⟩ | ⟨_, o⟩
      · omega
      · rw [o]
        exact SetPixel_outcome_congr h d W (p * q) calls r g b (by omega) (by omega)

/-- Dispatch of `width()` on a `MyNewTransformer` canvas. -/
theorem virt_width_mynew (n : Nat) (h : Heap) (c : Nat)
    (s : MyNewTransformer.TransformCanvas) (hc : h c = some (.mynew s)) :
    (Canvas.virt (n + 1)).width (some c) h
      = MyNewTransformer.TransformCanvas.width (Canvas.virt n) s h := by
  simp [Canvas.virt, hc]

/-- Dispatch of `height()` on a `MyNewTransformer` canvas. -/
theorem virt_height_mynew (n : Nat) (h : Heap) (c : Nat)
    (s : MyNewTransformer.TransformCanvas) (hc : h c = some (.mynew s)) :
    (Canvas.virt (n + 1)).height (some c) h
      = MyNewTransformer.TransformCanvas.height (Canvas.virt n) s h := by
  simp [Canvas.virt, hc]

/-- Dispatch of `SetPixel` on a `MyNewTransformer` canvas. -/
theorem virt_SetPixel_mynew (n : Nat) (h : Heap) (c : Nat)
    (s : MyNewTransformer.TransformCanvas)
    (x y : Int) (r g b : Fin 256) (hc : h c = some (.mynew s)) :
    (Canvas.virt (n + 1)).SetPixel (some c) x y r g b h
      = MyNewTransformer.TransformCanvas.SetPixel (Canvas.virt n) s x y r g b h := by
  simp [Canvas.virt, hc]

/-- For non-negative `x`, `y` the `MyNewTransformer` canvas in front of a
recording surface forwards `SetPixel` as one `SetPixel` at the coordinates of
its formula, written with floor division and modulus. -/
theorem MyNew_SetPixel_nonneg (n : Nat) (h : Heap) (c d : Nat) (W H : Int)
    (calls : List Call) (x y : Int) (r g b : Fin 256)
    (hc : h c = some (.mynew { delegatee_ := some d }))
    (hd : h d = some (.surface { width := W, height := H, calls := calls }))
    (hx : 0 ≤ x) (hy : 0 ≤ y) :
    (Canvas.virt (n + 2)).SetPixel (some c) x y r g b h
      = .ok (h.store d (.surface
          { width := W, height := H,
            calls := calls ++ [.SetPixel (x % 32 + 64 * (x / 32) + 32 * (y / 8 % 2))
              (y % 8 + 8 * (y / 16)) r g b] })) := by
  have e1 : x.tdiv 32 = x / 32 := Int.tdiv_eq_ediv hx (by omega)
  have e2 : x.tmod 32 = x % 32 := Int.tmod_eq_emod hx (by omega)
  have e3 : y.tdiv 8 = y / 8 := Int.tdiv_eq_ediv hy (by omega)
  have e4 : (y / 8).tmod 2 = y / 8 % 2 := Int.tmod_eq_emod (by omega) (by omega)
  have e5 : y.tdiv 16 = y / 16 := Int.tdiv_eq_ediv hy (by omega)
  have e6 : y.tmod 8 = y % 8 := Int.tmod_eq_emod hy (by omega)
  rw [show n + 2 = (n + 1) + 1 from rfl, virt_SetPixel_mynew (n + 1) h c _ x y r g b hc]
  simp only [MyNewTransformer.TransformCanvas.SetPixel, e1, e2, e3, e4, e5, e6,
    virt_SetPixel_surface n h d _ _ _ _ _ _ hd]
  exact SetPixel_outcome_congr h d W H calls r g b (by omega) (by omega)

/-! ## C11: the pipeline binds its stages in order -/

/-- C11. `AddTransformer` appends one stage and the list overload appends a
list of stages at the end of the sequence.  `Transform` of the empty pipeline
returns the given surface itself; `Transform` of a pipeline extended by a
stage (or a list of stages) is `Transform` of the pipeline as it was, followed
by binding the new stage (or stages, in order) to the surface that returned;
so `Transform` is the left fold of the stages' `Transform` over the sequence,
each stage bound once, in order, to what the previous one returned. -/
theorem C11_pipeline_apply_is_fold (V : Canvas) (L : LinkedTransformer)
    (t : CanvasTransformer) (ts : List CanvasTransformer) (c : Ptr) (h : Heap) :
    (L.AddTransformer t).list_ = L.list_ ++ [t]
    ∧ (L.AddTransformers ts).list_ = L.list_ ++ ts
    ∧ LinkedTransformer.Transform V { list_ := [] } c h = .ok (c, h)
    ∧ LinkedTransformer.Transform V (L.AddTransformer t) c h
        = (LinkedTransformer.Transform V L c h).bind (fun r => t.Transform V r.1 r.2)
    ∧ LinkedTransformer.Transform V (L.AddTransformers ts) c h
        = (LinkedTransformer.Transform V L c h).bind
            (fun r => LinkedTransformer.Transform V { list_ := ts } r.1 r.2)
    ∧ LinkedTransformer.Transform V L c h
        = L.list_.foldlM (fun (r : Ptr × Heap) s => s.Transform V r.1 r.2) (c, h) := by
  refine ⟨rfl, rfl, rfl, ?_, ?_, ?_⟩
  · simp only [LinkedTransformer.Transform, LinkedTransformer.AddTransformer,
      Linked_loop_append]
    congr 1
    funext r
    simp only [LinkedTransformer.Transform.loop, bind]
    cases t.Transform V r.1 r.2 with
    | error e => simp [Except.bind]
    | ok r => simp [Except.bind]
  · simp only [LinkedTransformer.Transform, LinkedTransformer.AddTransformers,
      Linked_loop_append]
  · exact Linked_loop_eq_foldlM V L.list_ c h

/-! ## C12: the legacy preset is the two-stage pipeline -/

/-- C12. On every input, also a null surface or one on which binding fails,
the legacy preset's `Transform` returns what `LinkedTransformer::Transform`
returns for the pipeline of its U-arrangement stage followed by its rotation
stage.  Moreover, take any U-arrangement stage with one parallel chain and any
rotation stage with stored angle 180, and a preset whose members have these
parameters: on a recording surface `d`, binding the preset and binding the
pipeline of the two stages both succeed, and, whatever `d` has recorded so
far, the two returned surfaces report the same `width()` and `height()`, and
every `SetPixel`, `Clear` and `Fill` ends the same way on both and leaves the
same record on `d`. -/
theorem C12_legacy_preset_is_pipeline (V : Canvas) (k n : Nat)
    (P : LargeSquare64x64Transformer) (c : Ptr) (h0 : Heap) :
    P.Transform V c h0 = LinkedTransformer.Transform V P.asPipeline c h0
    ∧ ∀ (T1 : UArrangementTransformer) (T2 : RotateTransformer)
        (sa s1 : UArrangementTransformer.TransformCanvas)
        (sr s2 : RotateTransformer.TransformCanvas) (d : Nat) (rec : Recorder),
      h0 P.arrange_.canvas_ = some (.uarrangement sa) → sa.parallel_ = 1 →
      h0 P.rotated_.canvas_ = some (.rotate sr) → sr.angle_ = 180 →
      h0 T1.canvas_ = some (.uarrangement s1) → s1.parallel_ = 1 →
      h0 T2.canvas_ = some (.rotate s2) → s2.angle_ = 180 →
      h0 d = some (.surface rec) →
      ∃ out h out1 h1,
        P.Transform (Canvas.virt (k + 1)) (some d) h0 = .ok (out, h)
        ∧ LinkedTransformer.Transform (Canvas.virt (k + 1))
            { list_ := [.UArrangement T1, .Rotate T2] } (some d) h0 = .ok (out1, h1)
        ∧ ∀ (cs : List Call) (x y : Int) (r g b : Fin 256),
          (Canvas.virt (n + 3)).width out (h.store d (.surface { rec with calls := cs }))
            = .ok (rec.width.tdiv 64 * 32)
          ∧ (Canvas.virt (n + 3)).width out1 (h1.store d (.surface { rec with calls := cs }))
            = .ok (rec.width.tdiv 64 * 32)
          ∧ (Canvas.virt (n + 3)).height out (h.store d (.surface { rec with calls := cs }))
            = .ok (2 * rec.height)
          ∧ (Canvas.virt (n + 3)).height out1 (h1.store d (.surface { rec with calls := cs }))
            = .ok (2 * rec.height)
          ∧ ((Canvas.virt (n + 3)).SetPixel out x y r g b
                (h.store d (.surface { rec with calls := cs }))).map (fun res => res d)
            = ((Canvas.virt (n + 3)).SetPixel out1 x y r g b
                (h1.store d (.surface { rec with calls := cs }))).map (fun res => res d)
          ∧ ((Canvas.virt (n + 3)).Clear out
                (h.store d (.surface { rec with calls := cs }))).map (fun res => res d)
            = .ok (some (.surface { rec with calls := cs ++ [.Clear] }))
          ∧ ((Canvas.virt (n + 3)).Clear out1
                (h1.store d (.surface { rec with calls := cs }))).map (fun res => res d)
            = .ok (some (.surface { rec with calls := cs ++ [.Clear] }))
          ∧ ((Canvas.virt (n + 3)).Fill out r g b
                (h.store d (.surface { rec with calls := cs }))).map (fun res => res d)
            = .ok (some (.surface { rec with calls := cs ++ [.Fill r g b] }))
          ∧ ((Canvas.virt (n + 3)).Fill out1 r g b
                (h1.store d (.surface { rec with calls := cs }))).map (fun res => res d)
            = .ok (some (.surface { rec with calls := cs ++ [.Fill r g b] })) := by
  refine ⟨LargeSquare_Transform_eq_pipeline V P c h0, ?_⟩
  intro T1 T2 sa s1 sr s2 d rec hca hpa hcr hra hc1 hp1 hc2 ha2 hd
  obtain ⟨h, hT, er, eu, ed⟩ := LargeSquare_Transform_surface k h0 P sa sr d rec hca hpa hcr hd
  obtain ⟨h1, hT1, er1, eu1, ed1⟩ :=
    LargeSquare_Transform_surface k h0 { arrange_ := T1, rotated_ := T2 } s1 s2 d rec
      hc1 hp1 hc2 hd
  rw [LargeSquare_Transform_eq_pipeline] at hT1
  rw [hra] at er
  rw [ha2] at er1
  have hdr : P.rotated_.canvas_ ≠ d := ne_of_objs er ed (by simp)
  have hda : P.arrange_.canvas_ ≠ d := ne_of_objs eu ed (by simp)
  have hdr1 : T2.canvas_ ≠ d := ne_of_objs er1 ed1 (by simp)
  have hda1 : T1.canvas_ ≠ d := ne_of_objs eu1 ed1 (by simp)
  refine ⟨_, h, _, h1, hT, hT1, ?_⟩
  intro cs x y r g b
  have fr : (h.store d (.surface { rec with calls := cs })) P.rotated_.canvas_ = _ :=
    (Heap.store_other _ _ hdr).trans er
  have fu : (h.store d (.surface { rec with calls := cs })) P.arrange_.canvas_ = _ :=
    (Heap.store_other _ _ hda).trans eu
  have fd : (h.store d (.surface { rec with calls := cs })) d = _ := Heap.store_same _ _ _
  have fr1 : (h1.store d (.surface { rec with calls := cs })) T2.canvas_ = _ :=
    (Heap.store_other _ _ hdr1).trans er1
  have fu1 : (h1.store d (.surface { rec with calls := cs })) T1.canvas_ = _ :=
    (Heap.store_other _ _ hda1).trans eu1
  have fd1 : (h1.store d (.surface { rec with calls := cs })) d = _ := Heap.store_same _ _ _
  obtain ⟨w, ht, sp, cl, fl⟩ := Rotate180_over_UArrangement n _ _ _ _ x y r g b fr fu
  obtain ⟨w1, ht1, sp1, cl1, fl1⟩ := Rotate180_over_UArrangement n _ _ _ _ x y r g b fr1 fu1
  refine ⟨w, w1, ht, ht1, ?_, ?_, ?_, ?_, ?_⟩
  · rw [sp, sp1]
    exact UArrangement_SetPixel_observed n _ _ d _ _ _ _ r g b rfl fd fd1
  · rw [cl, virt_Clear_surface n _ d _ fd]
    simp [Except.map, Heap.store_same]
  · rw [cl1, virt_Clear_surface n _ d _ fd1]
    simp [Except.map, Heap.store_same]
  · rw [fl, virt_Fill_surface n _ d _ r g b fd]
    simp [Except.map, Heap.store_same]
  · rw [fl1, virt_Fill_surface n _ d _ r g b fd1]
    simp [Except.map, Heap.store_same]

/-- C12 on the inner 128x32 surface, with the preset at addresses 1 and 2 and
separate stages at addresses 3 and 4: both bindings succeed and the write at
(3, 40) leaves the same record on the inner surface. -/
theorem C12_legacy_preset_is_pipeline_witness :
    ∃ out h out1 h1,
      LargeSquare64x64Transformer.Transform (Canvas.virt 1) largeSquarePreset (some 0)
          presetAndStages128x32 = .ok (out, h)
      ∧ LinkedTransformer.Transform (Canvas.virt 1)
          { list_ := [.UArrangement { canvas_ := 3 },
                      .Rotate { angle_ := 180, canvas_ := 4 }] }
          (some 0) presetAndStages128x32 = .ok (out1, h1)
      ∧ ((Canvas.virt 3).SetPixel out 3 40 170 85 255
            (h.store 0 (.surface { width := 128, height := 32, calls := [] }))).map
          (fun res => res 0)
        = ((Canvas.virt 3).SetPixel out1 3 40 170 85 255
            (h1.store 0 (.surface { width := 128, height := 32, calls := [] }))).map
          (fun res => res 0) := by
  obtain ⟨out, h, out1, h1, hT, hT1, hobs⟩ :=
    (C12_legacy_preset_is_pipeline (Canvas.virt 1) 0 0 largeSquarePreset (some 0)
      presetAndStages128x32).2 { canvas_ := 3 } { angle_ := 180, canvas_ := 4 }
      { parallel_ := 1, width_ := 0, height_ := 0, panel_height_ := 0, delegatee_ := none }
      { parallel_ := 1, width_ := 0, height_ := 0, panel_height_ := 0, delegatee_ := none }
      { delegatee_ := none, angle_ := 180 } { delegatee_ := none, angle_ := 180 } 0
      { width := 128, height := 32, calls := [] } rfl rfl rfl rfl rfl rfl rfl rfl rfl
  exact ⟨out, h, out1, h1, hT, hT1, (hobs [] 3 40 170 85 255).2.2.2.2.1⟩

/-! ## C13: a new binding replaces the old one -/

/-- C13. Let `a` and `b` be two recording surfaces.  Binding a
rotation stage to `a` and then to `b` returns the same surface and leaves
exactly the heap that binding it to `b` alone leaves; the same holds for a
U-arrangement stage with `p >= 1` chains when `p` divides both heights, and
then width, height and panel height are those computed from `b`.  After the
two bindings `Fill` and `Clear` are recorded once on `b`, and a `SetPixel`
that returns has recorded nothing or one `SetPixel` on `b`; when `a` is not
`b`, the record of `a` stays as it was. -/
theorem C13_rebind_replaces_binding (k n : Nat) (h : Heap) (a b : Nat) (ra rb : Recorder)
    (x y : Int) (r g bl : Fin 256)
    (ha : h a = some (.surface ra)) (hb : h b = some (.surface rb)) :
    (∀ (T : RotateTransformer) (s : RotateTransformer.TransformCanvas),
      h T.canvas_ = some (.rotate s) →
      ∃ h2,
        (T.Transform (some a) h).bind (fun res => T.Transform (some b) res.2)
          = .ok (some T.canvas_, h2)
        ∧ T.Transform (some b) h = .ok (some T.canvas_, h2)
        ∧ h2 T.canvas_ = some (.rotate { delegatee_ := some b, angle_ := s.angle_ })
        ∧ (Canvas.virt (n + 2)).Fill (some T.canvas_) r g bl h2
          = .ok (h2.store b (.surface { rb with calls := rb.calls ++ [.Fill r g bl] }))
        ∧ (Canvas.virt (n + 2)).Clear (some T.canvas_) h2
          = .ok (h2.store b (.surface { rb with calls := rb.calls ++ [.Clear] }))
        ∧ (∀ h3, (Canvas.virt (n + 2)).SetPixel (some T.canvas_) x y r g bl h2 = .ok h3 →
            (a ≠ b → h3 a = some (.surface ra))
            ∧ (h3 = h2 ∨ ∃ u v, h3 = h2.store b (.surface
                { rb with calls := rb.calls ++ [.SetPixel u v r g bl] }))))
    ∧ (∀ (T : UArrangementTransformer) (s0 : UArrangementTransformer.TransformCanvas),
      h T.canvas_ = some (.uarrangement s0) → 1 ≤ s0.parallel_ →
      s0.parallel_ ∣ ra.height → s0.parallel_ ∣ rb.height →
      ∃ h2,
        (T.Transform (Canvas.virt (k + 1)) (some a) h).bind
            (fun res => T.Transform (Canvas.virt (k + 1)) (some b) res.2)
          = .ok (some T.canvas_, h2)
        ∧ T.Transform (Canvas.virt (k + 1)) (some b) h = .ok (some T.canvas_, h2)
        ∧ h2 T.canvas_ = some (.uarrangement
            { parallel_ := s0.parallel_, width_ := rb.width.tdiv 64 * 32,
              height_ := 2 * rb.height, panel_height_ := rb.height / s0.parallel_,
              delegatee_ := some b })
        ∧ (Canvas.virt (n + 2)).Fill (some T.canvas_) r g bl h2
          = .ok (h2.store b (.surface { rb with calls := rb.calls ++ [.Fill r g bl] }))
        ∧ (Canvas.virt (n + 2)).Clear (some T.canvas_) h2
          = .ok (h2.store b (.surface { rb with calls := rb.calls ++ [.Clear] }))
        ∧ (∀ h3, (Canvas.virt (n + 2)).SetPixel (some T.canvas_) x y r g bl h2 = .ok h3 →
            (a ≠ b → h3 a = some (.surface ra))
            ∧ (h3 = h2 ∨ ∃ u v, h3 = h2.store b (.surface
                { rb with calls := rb.calls ++ [.SetPixel u v r g bl] })))) := by
  constructor
  · intro T s hc
    have hac : a ≠ T.canvas_ := ne_of_objs ha hc (by simp)
    have hbc : b ≠ T.canvas_ := ne_of_objs hb hc (by simp)
    obtain ⟨e1, e2⟩ := Rotate_rebind T s a b h hc
    have kb : ∀ o, (h.store T.canvas_ o) b = some (.surface rb) := by
      intro o; rw [Heap.store_other _ _ hbc, hb]
    have ka : ∀ o, (h.store T.canvas_ o) a = some (.surface ra) := by
      intro o; rw [Heap.store_other _ _ hac, ha]
    refine ⟨_, e1, e2, Heap.store_same _ _ _, ?_, ?_, ?_⟩
    · rw [show n + 2 = (n + 1) + 1 from rfl,
        virt_Fill_rotate (n + 1) _ _ _ r g bl (Heap.store_same _ _ _)]
      exact virt_Fill_surface n _ b rb r g bl (kb _)
    · rw [show n + 2 = (n + 1) + 1 from rfl,
        virt_Clear_rotate (n + 1) _ _ _ (Heap.store_same _ _ _)]
      exact virt_Clear_surface n _ b rb (kb _)
    · intro h3 hok
      have sh := Rotate_SetPixel_shape n _ T.canvas_ b s.angle_ rb x y r g bl h3
        (Heap.store_same _ _ _) (kb _) hok
      refine ⟨?_, sh⟩
      intro hab
      rcases sh with e | ⟨u, v, e⟩
      · rw [e]; exact ka _
      · rw [e, Heap.store_other _ _ hab]; exact ka _
  · intro T s0 hc hp1 hda hdb
    have hac : a ≠ T.canvas_ := ne_of_objs ha hc (by simp)
    have hbc : b ≠ T.canvas_ := ne_of_objs hb hc (by simp)
    obtain ⟨e1, e2⟩ := UArrangement_rebind k T s0 a b ra rb h hc hp1 ha hb hda hdb
    have kb : ∀ o, (h.store T.canvas_ o) b = some (.surface rb) := by
      intro o; rw [Heap.store_other _ _ hbc, hb]
    have ka : ∀ o, (h.store T.canvas_ o) a = some (.surface ra) := by
      intro o; rw [Heap.store_other _ _ hac, ha]
    refine ⟨_, e1, e2, ?_, ?_, ?_, ?_⟩
    · rw [Heap.store_same, Int.tdiv_eq_ediv_of_dvd hdb]
    · rw [show n + 2 = (n + 1) + 1 from rfl,
        virt_Fill_uarrangement (n + 1) _ _ _ r g bl (Heap.store_same _ _ _)]
      exact virt_Fill_surface n _ b rb r g bl (kb _)
    · rw [show n + 2 = (n + 1) + 1 from rfl,
        virt_Clear_uarrangement (n + 1) _ _ _ (Heap.store_same _ _ _)]
      exact virt_Clear_surface n _ b rb (kb _)
    · intro h3 hok
      have sh := UArrangement_SetPixel_shape n _ T.canvas_ b _ rb x y r g bl h3
        (Heap.store_same _ _ _) rfl (kb _) hok
      refine ⟨?_, sh⟩
      intro hab
      rcases sh with e | ⟨u, v, e⟩
      · rw [e]; exact ka _
      · rw [e, Heap.store_other _ _ hab]; exact ka _

/-- C13 on two surfaces, 128x32 and 64x64: binding the rotation stage, or the
U-arrangement stage with two chains, to the first and then to the second
leaves what binding to the second alone leaves. -/
theorem C13_rebind_replaces_binding_witness :
    (∃ h2,
      (RotateTransformer.Transform { angle_ := 90, canvas_ := 2 } (some 0) twoSurfaces).bind
          (fun res => RotateTransformer.Transform { angle_ := 90, canvas_ := 2 } (some 1) res.2)
        = .ok (some 2, h2)
      ∧ RotateTransformer.Transform { angle_ := 90, canvas_ := 2 } (some 1) twoSurfaces
        = .ok (some 2, h2)
      ∧ h2 2 = some (.rotate { delegatee_ := some 1, angle_ := 90 }))
    ∧ (∃ h2,
      (UArrangementTransformer.Transform (Canvas.virt 1) { canvas_ := 3 } (some 0)
          twoSurfaces).bind
          (fun res => UArrangementTransformer.Transform (Canvas.virt 1) { canvas_ := 3 }
            (some 1) res.2)
        = .ok (some 3, h2)
      ∧ UArrangementTransformer.Transform (Canvas.virt 1) { canvas_ := 3 } (some 1)
          twoSurfaces = .ok (some 3, h2)
      ∧ h2 3 = some (.uarrangement
          { parallel_ := 2, width_ := 32, height_ := 128, panel_height_ := 32,
            delegatee_ := some 1 })) := by
  constructor
  · obtain ⟨h2, e1, e2, e3, _⟩ :=
      (C13_rebind_replaces_binding 0 0 twoSurfaces 0 1
        { width := 128, height := 32, calls := [] } { width := 64, height := 64, calls := [] }
        0 0 170 85 255 rfl rfl).1 { angle_ := 90, canvas_ := 2 }
        { delegatee_ := none, angle_ := 90 } rfl
    exact ⟨h2, e1, e2, e3⟩
  · obtain ⟨h2, e1, e2, e3, _⟩ :=
      (C13_rebind_replaces_binding 0 0 twoSurfaces 0 1
        { width := 128, height := 32, calls := [] } { width := 64, height := 64, calls := [] }
        0 0 170 85 255 rfl rfl).2 { canvas_ := 3 }
        { parallel_ := 2, width_ := 0, height_ := 0, panel_height_ := 0, delegatee_ := none }
        rfl (by decide) (by decide) (by decide)
    exact ⟨h2, e1, e2, e3⟩

/-! ## C14: colour and whole-surface calls pass through -/

/-- C14. In front of a recording surface, every remapper passes the colour on
unchanged and leaves whole-surface calls as they are.  A rotation canvas at
any of the four angles answers `SetPixel(x, y, r, g, b)` with exactly one
`SetPixel` carrying the same `(r, g, b)`; a U-arrangement canvas, whenever it
returns, has recorded either nothing or exactly one `SetPixel` carrying the
same `(r, g, b)`.  On both, `Fill(r, g, b)` ends as exactly one
`Fill(r, g, b)` and `Clear()` as exactly one `Clear()` on the surface, and
nothing else in the heap changes. -/
theorem C14_colour_and_whole_surface_calls (n : Nat) (h : Heap) (d : Nat) (rec : Recorder)
    (x y : Int) (r g b : Fin 256) (hd : h d = some (.surface rec)) :
    (∀ (c : Nat) (a : Int), h c = some (.rotate { delegatee_ := some d, angle_ := a }) →
      (a = 0 ∨ a = 90 ∨ a = 180 ∨ a = 270 →
        ∃ u v, (Canvas.virt (n + 2)).SetPixel (some c) x y r g b h
          = .ok (h.store d (.surface
              { rec with calls := rec.calls ++ [.SetPixel u v r g b] })))
      ∧ (Canvas.virt (n + 2)).Fill (some c) r g b h
          = .ok (h.store d (.surface { rec with calls := rec.calls ++ [.Fill r g b] }))
      ∧ (Canvas.virt (n + 2)).Clear (some c) h
          = .ok (h.store d (.surface { rec with calls := rec.calls ++ [.Clear] })))
    ∧ (∀ (c : Nat) (s : UArrangementTransformer.TransformCanvas),
      h c = some (.uarrangement s) → s.delegatee_ = some d →
      (∀ h1, (Canvas.virt (n + 2)).SetPixel (some c) x y r g b h = .ok h1 →
        h1 = h ∨ ∃ u v, h1 = h.store d (.surface
          { rec with calls := rec.calls ++ [.SetPixel u v r g b] }))
      ∧ (Canvas.virt (n + 2)).Fill (some c) r g b h
          = .ok (h.store d (.surface { rec with calls := rec.calls ++ [.Fill r g b] }))
      ∧ (Canvas.virt (n + 2)).Clear (some c) h
          = .ok (h.store d (.surface { rec with calls := rec.calls ++ [.Clear] }))) := by
  constructor
  · intro c a hc
    refine ⟨?_, ?_, ?_⟩
    · intro ha
      have F := Forwards.rotate (n + 1) h c _ a d rec _ _ _ hc (Forwards.surface n h d rec hd)
      rcases ha with ha | ha | ha | ha
      · exact ⟨_, _, (F.1 ha).2.2 x y r g b⟩
      · exact ⟨_, _, (F.2.1 ha).2.2 x y r g b⟩
      · exact ⟨_, _, (F.2.2.1 ha).2.2 x y r g b⟩
      · exact ⟨_, _, (F.2.2.2 ha).2.2 x y r g b⟩
    · rw [show n + 2 = (n + 1) + 1 from rfl, virt_Fill_rotate (n + 1) h c _ r g b hc]
      exact virt_Fill_surface n h d rec r g b hd
    · rw [show n + 2 = (n + 1) + 1 from rfl, virt_Clear_rotate (n + 1) h c _ hc]
      exact virt_Clear_surface n h d rec hd
  · intro c s hc hs
    refine ⟨?_, ?_, ?_⟩
    · intro h1 hok
      exact UArrangement_SetPixel_shape n h c d s rec x y r g b h1 hc hs hd hok
    · rw [show n + 2 = (n + 1) + 1 from rfl, virt_Fill_uarrangement (n + 1) h c _ r g b hc, hs]
      exact virt_Fill_surface n h d rec r g b hd
    · rw [show n + 2 = (n + 1) + 1 from rfl, virt_Clear_uarrangement (n + 1) h c _ hc, hs]
      exact virt_Clear_surface n h d rec hd

/-- C14 on the rotation by 180 bound to the 64x32 surface: a fill with
(170, 85, 255) is recorded as that one fill, a clear as one clear. -/
theorem C14_colour_and_whole_surface_calls_witness :
    (Canvas.virt 2).Fill (some 1) 170 85 255 (rotated64x32 180)
        = .ok ((rotated64x32 180).store 0 (.surface
            { width := 64, height := 32, calls := [.Fill 170 85 255] }))
    ∧ (Canvas.virt 2).Clear (some 1) (rotated64x32 180)
        = .ok ((rotated64x32 180).store 0 (.surface
            { width := 64, height := 32, calls := [.Clear] }))
    ∧ (Canvas.virt 2).Fill (some 1) 170 85 255 boundU128x32
        = .ok (boundU128x32.store 0 (.surface
            { width := 128, height := 32, calls := [.Fill 170 85 255] })) :=
  ⟨((C14_colour_and_whole_surface_calls 0 (rotated64x32 180) 0
      { width := 64, height := 32, calls := [] } 0 0 170 85 255 rfl).1 1 180 rfl).2.1,
   ((C14_colour_and_whole_surface_calls 0 (rotated64x32 180) 0
      { width := 64, height := 32, calls := [] } 0 0 170 85 255 rfl).1 1 180 rfl).2.2,
   ((C14_colour_and_whole_surface_calls 0 boundU128x32 0
      { width := 128, height := 32, calls := [] } 0 0 170 85 255 rfl).2 1
      { parallel_ := 1, width_ := 64, height_ := 64, panel_height_ := 32,
        delegatee_ := some 0 } rfl rfl).2.1⟩

/-! ## C15: the U-arrangement is a bijection of the grids -/

/-- C15. Bind a U-arrangement stage with `p >= 1` parallel chains to a
recording surface whose width `W` is a multiple of 64 (in particular one with
`W > 0`) and whose height `H > 0` is a multiple of `p`.  The binding succeeds,
and on the bound surface every logical pixel of `[0, W / 2) x [0, 2 * H)` is
forwarded, as exactly one `SetPixel`, to an inner pixel of
`[0, W) x [0, H)`; two logical pixels of the grid whose `SetPixel` ends the
same way are the same pixel; and every inner pixel of `[0, W) x [0, H)` is
reached from a logical pixel of the grid. -/
theorem C15_uarrangement_bijection (k n : Nat) (h0 : Heap) (T : UArrangementTransformer)
    (d : Nat) (s0 : UArrangementTransformer.TransformCanvas) (W H p : Int)
    (calls : List Call) (r g b : Fin 256)
    (hc : h0 T.canvas_ = some (.uarrangement s0)) (hp : s0.parallel_ = p) (hp1 : 1 ≤ p)
    (hd : h0 d = some (.surface { width := W, height := H, calls := calls }))
    (h64 : 64 ∣ W) (hH : 0 < H) (hpH : p ∣ H) :
    ∃ out h, T.Transform (Canvas.virt (k + 1)) (some d) h0 = .ok (out, h)
      ∧ (∀ x y, 0 ≤ x → x < W / 2 → 0 ≤ y → y < 2 * H →
          ∃ u v, 0 ≤ u ∧ u < W ∧ 0 ≤ v ∧ v < H
            ∧ (Canvas.virt (n + 2)).SetPixel out x y r g b h
              = .ok (h.store d (.surface
                  { width := W, height := H, calls := calls ++ [.SetPixel u v r g b] })))
      ∧ (∀ x1 y1 x2 y2, 0 ≤ x1 → x1 < W / 2 → 0 ≤ y1 → y1 < 2 * H →
          0 ≤ x2 → x2 < W / 2 → 0 ≤ y2 → y2 < 2 * H →
          (Canvas.virt (n + 2)).SetPixel out x1 y1 r g b h
            = (Canvas.virt (n + 2)).SetPixel out x2 y2 r g b h →
          x1 = x2 ∧ y1 = y2)
      ∧ (∀ u v, 0 ≤ u → u < W → 0 ≤ v → v < H →
          ∃ x y, 0 ≤ x ∧ x < W / 2 ∧ 0 ≤ y ∧ y < 2 * H
            ∧ (Canvas.virt (n + 2)).SetPixel out x y r g b h
              = .ok (h.store d (.surface
                  { width := W, height := H, calls := calls ++ [.SetPixel u v r g b] }))) := by
  have hq : 0 < H / p := Int.ediv_pos_of_pos_of_dvd hH (by omega) hpH
  obtain ⟨q, rfl⟩ := hpH
  have hpq : p * q / p = q := Int.mul_ediv_cancel_left q (by omega)
  rw [hpq] at hq
  have hne : d ≠ T.canvas_ := ne_of_objs hd hc (by simp)
  have hT := UArrangement_Transform_surface k h0 T d s0 W (p * q) calls hc hd
  rw [hp] at hT
  have hp0 : p ≠ 0 := by omega
  have hm : (p * q).tmod p = 0 := Int.tmod_eq_zero_of_dvd (Dvd.intro q rfl)
  have htd : (p * q).tdiv p = q := by
    rw [Int.tdiv_eq_ediv_of_dvd (Dvd.intro q rfl), hpq]
  simp only [hp0, hm, if_false, ne_eq, not_true_eq_false, htd] at hT
  refine ⟨_, _, hT, ?_⟩
  exact UArrangement_bijection n _ T.canvas_ d W p q calls r g b (Heap.store_same _ _ _)
    (by rw [Heap.store_other _ _ hne, hd]) hp1 hq h64

/-- C15 for one parallel chain on the inner 128x32 surface: binding succeeds
and the pixel mapping is injective on the logical 64x64 grid. -/
theorem C15_uarrangement_bijection_witness :
    ∃ out h, UArrangementTransformer.Transform (Canvas.virt 1) { canvas_ := 1 } (some 0)
          (surfaceWithU 128 32 1) = .ok (out, h)
      ∧ (∀ x1 y1 x2 y2, 0 ≤ x1 → x1 < (128 : Int) / 2 → 0 ≤ y1 →
          y1 < (2 : Int) * 32 →
          0 ≤ x2 → x2 < (128 : Int) / 2 → 0 ≤ y2 → y2 < (2 : Int) * 32 →
          (Canvas.virt 2).SetPixel out x1 y1 170 85 255 h
            = (Canvas.virt 2).SetPixel out x2 y2 170 85 255 h →
          x1 = x2 ∧ y1 = y2) := by
  obtain ⟨out, h, hT, _, hinj, _⟩ :=
    C15_uarrangement_bijection 0 0 (surfaceWithU 128 32 1) { canvas_ := 1 } 0
      { parallel_ := 1, width_ := 0, height_ := 0, panel_height_ := 0, delegatee_ := none }
      128 32 1 [] 170 85 255 rfl rfl (by decide) rfl (by decide) (by decide) (by decide)
  exact ⟨out, h, hT, hinj⟩

/-! ## C16: rotations compose additively -/

/-- C16. Take stored angles `a` and `b` among 0, 90, 180, 270, two distinct
rotation stages with these angles and a third rotation stage whose stored
angle is `(a + b) mod 360`.  On any recording surface, and for arbitrary
integers `x`, `y`, the outermost surface of the pipeline of the first two
stages, bound in that order, and the surface of the third stage bound alone
report the same `width()` and `height()` and forward `SetPixel(x, y, colour)`
to the same inner coordinates `(u, v)`, as exactly one `SetPixel`. -/
theorem C16_rotations_compose (V : Canvas) (n : Nat) (h : Heap) (d : Nat) (W H : Int)
    (calls : List Call) (x y : Int) (r g b : Fin 256)
    (t1 t2 t3 : RotateTransformer) (s1 s2 s3 : RotateTransformer.TransformCanvas)
    (hd : h d = some (.surface { width := W, height := H, calls := calls }))
    (hne : t1.canvas_ ≠ t2.canvas_)
    (h1 : h t1.canvas_ = some (.rotate s1)) (h2 : h t2.canvas_ = some (.rotate s2))
    (h3 : h t3.canvas_ = some (.rotate s3))
    (ha : s1.angle_ = 0 ∨ s1.angle_ = 90 ∨ s1.angle_ = 180 ∨ s1.angle_ = 270)
    (hb : s2.angle_ = 0 ∨ s2.angle_ = 90 ∨ s2.angle_ = 180 ∨ s2.angle_ = 270)
    (hsum : s3.angle_ = (s1.angle_ + s2.angle_) % 360) :
    ∃ out hp out3 hs u v w ht,
      LinkedTransformer.Transform V { list_ := [.Rotate t1, .Rotate t2] } (some d) h
        = .ok (out, hp)
      ∧ t3.Transform (some d) h = .ok (out3, hs)
      ∧ (Canvas.virt (n + 3)).width out hp = .ok w
      ∧ (Canvas.virt (n + 3)).width out3 hs = .ok w
      ∧ (Canvas.virt (n + 3)).height out hp = .ok ht
      ∧ (Canvas.virt (n + 3)).height out3 hs = .ok ht
      ∧ (Canvas.virt (n + 3)).SetPixel out x y r g b hp
        = .ok (hp.store d (.surface
            { width := W, height := H, calls := calls ++ [.SetPixel u v r g b] }))
      ∧ (Canvas.virt (n + 3)).SetPixel out3 x y r g b hs
        = .ok (hs.store d (.surface
            { width := W, height := H, calls := calls ++ [.SetPixel u v r g b] })) := by
  obtain ⟨hp, hT, e0, e1, e2⟩ := Linked_Transform_rotate2 V h d _ t1 t2 s1 s2 hd hne h1 h2
  have hT3 := Rotate_Transform_ok t3 s3 d h h3
  have hd3 : d ≠ t3.canvas_ := ne_of_objs hd h3 (by simp)
  generalize hhs : h.store t3.canvas_
    (.rotate { delegatee_ := some d, angle_ := s3.angle_ }) = hs at hT3
  have f0 : hs d = some (.surface { width := W, height := H, calls := calls }) := by
    rw [← hhs, Heap.store_other _ _ hd3, hd]
  have f3 : hs t3.canvas_ = some (.rotate { delegatee_ := some d, angle_ := s3.angle_ }) := by
    rw [← hhs, Heap.store_same]
  have F0 : Forwards (Canvas.virt (n + 1)) hp (some d) d
      { width := W, height := H, calls := calls } W H (fun x y => (x, y)) :=
    Forwards.surface n hp d _ e0
  have G0 : Forwards (Canvas.virt (n + 2)) hs (some d) d
      { width := W, height := H, calls := calls } W H (fun x y => (x, y)) :=
    Forwards.surface (n + 1) hs d _ f0
  have F1 := Forwards.rotate (n + 1) hp _ _ _ d _ _ _ _ e1 F0
  have G1 := Forwards.rotate (n + 2) hs _ _ _ d _ _ _ _ f3 G0
  rw [hsum] at G1
  refine ⟨some t2.canvas_, hp, some t3.canvas_, hs, ?_⟩
  rcases ha with ha | ha | ha | ha <;> rcases hb with hb | hb | hb | hb <;>
  · rw [ha, hb] at G1
    rw [ha] at F1
    norm_num at F1 G1
    have F2 := Forwards.rotate (n + 2) hp _ _ _ d _ _ _ _ e2 F1
    rw [hb] at F2
    norm_num at F2
    obtain ⟨hw, hh, hs2⟩ := F2
    obtain ⟨gw, gh, gs⟩ := G1
    dsimp only at hs2 gs
    refine ⟨_, _, _, _, hT, hT3, hw, gw, hh, gh, hs2 x y r g b, ?_⟩
    refine (gs x y r g b).trans ?_
    exact SetPixel_outcome_congr hs d W H calls r g b (by omega) (by omega)

/-- C16 on the inner 64x32 surface: the pipeline [Rot(90), Rot(180)] and a
single Rot(270) agree at pixel (5, 7). -/
theorem C16_rotations_compose_witness :
    ∃ out hp out3 hs u v w ht,
      LinkedTransformer.Transform (Canvas.virt 0)
          { list_ := [.Rotate { angle_ := 90, canvas_ := 1 },
                      .Rotate { angle_ := 180, canvas_ := 2 }] }
          (some 0) (stages64x32 90 180 270 90) = .ok (out, hp)
      ∧ RotateTransformer.Transform { angle_ := 270, canvas_ := 3 } (some 0)
          (stages64x32 90 180 270 90) = .ok (out3, hs)
      ∧ (Canvas.virt 3).width out hp = .ok w
      ∧ (Canvas.virt 3).width out3 hs = .ok w
      ∧ (Canvas.virt 3).height out hp = .ok ht
      ∧ (Canvas.virt 3).height out3 hs = .ok ht
      ∧ (Canvas.virt 3).SetPixel out 5 7 170 85 255 hp
        = .ok (hp.store 0 (.surface
            { width := 64, height := 32, calls := [] ++ [.SetPixel u v 170 85 255] }))
      ∧ (Canvas.virt 3).SetPixel out3 5 7 170 85 255 hs
        = .ok (hs.store 0 (.surface
            { width := 64, height := 32, calls := [] ++ [.SetPixel u v 170 85 255] })) :=
  C16_rotations_compose (Canvas.virt 0) 0 (stages64x32 90 180 270 90) 0 64 32 [] 5 7
    170 85 255 { angle_ := 90, canvas_ := 1 } { angle_ := 180, canvas_ := 2 }
    { angle_ := 270, canvas_ := 3 } { delegatee_ := none, angle_ := 90 }
    { delegatee_ := none, angle_ := 180 } { delegatee_ := none, angle_ := 270 }
    rfl (by decide) rfl rfl rfl (Or.inr (Or.inl rfl)) (Or.inr (Or.inr (Or.inl rfl)))
    (by decide)

/-! ## C17: the U-arrangement never divides by zero -/

/-- C17. After a U-arrangement stage with `p >= 1` parallel chains has been
bound successfully to a recording surface of any integer width and height
(zero and negative heights included), `SetPixel(x, y, colour)` returns
normally for all integers `x`, `y`: no division or remainder by zero occurs.
When `slab_height = 2 * panel_height_` is zero the bounds check has rejected
the write and the heap is unchanged, and a write that passes the bounds check
finds `slab_height` different from zero. -/
theorem C17_uarrangement_no_division_by_zero (k n : Nat) (h0 h : Heap)
    (T : UArrangementTransformer) (d : Nat) (s0 : UArrangementTransformer.TransformCanvas)
    (W H p : Int) (calls : List Call) (out : Ptr) (x y : Int) (r g b : Fin 256)
    (hc : h0 T.canvas_ = some (.uarrangement s0)) (hp : s0.parallel_ = p) (hp1 : 1 ≤ p)
    (hd : h0 d = some (.surface { width := W, height := H, calls := calls }))
    (hbind : T.Transform (Canvas.virt k) (some d) h0 = .ok (out, h)) :
    (∃ h1, (Canvas.virt (n + 2)).SetPixel out x y r g b h = .ok h1)
    ∧ (∃ s, h T.canvas_ = some (.uarrangement s) ∧ out = some T.canvas_
        ∧ (2 * s.panel_height_ = 0 →
            (Canvas.virt (n + 2)).SetPixel out x y r g b h = .ok h)
        ∧ (¬ (x < 0 ∨ x ≥ s.width_ ∨ y < 0 ∨ y ≥ s.height_) →
            2 * s.panel_height_ ≠ 0)) := by
  obtain ⟨hdvd, hout, hh⟩ :=
    UArrangement_bound_state k h0 h T d s0 W H p calls out hc hp hp1 hd hbind
  have hne : d ≠ T.canvas_ := ne_of_objs hd hc (by simp)
  have hc1 : h T.canvas_ = some (.uarrangement
      { parallel_ := p, width_ := W.tdiv 64 * 32, height_ := 2 * H,
        panel_height_ := H / p, delegatee_ := some d }) := by
    rw [hh, Heap.store_same]
  have hd1 : h d = some (.surface { width := W, height := H, calls := calls }) := by
    rw [hh, Heap.store_other _ _ hne, hd]
  subst hout
  obtain ⟨t1, t2, t3⟩ :=
    UArrangement_SetPixel_total n h T.canvas_ d W H p calls x y r g b hc1 hd1 hp1 hdvd
  exact ⟨t1, _, hc1, rfl, t2, t3⟩

/-- C17 on 128-wide inner surfaces of height 0 and of height -32, one parallel
chain: `SetPixel(0, 0, ...)` returns normally. -/
theorem C17_uarrangement_no_division_by_zero_witness :
    (∃ h1, (Canvas.virt 2).SetPixel (some 1) 0 0 170 85 255
        ((surfaceWithU 128 0 1).store 1 (.uarrangement
          { parallel_ := 1, width_ := 64, height_ := 2 * 0, panel_height_ := Int.tdiv 0 1,
            delegatee_ := some 0 })) = .ok h1)
    ∧ (∃ h1, (Canvas.virt 2).SetPixel (some 1) 0 0 170 85 255
        ((surfaceWithU 128 (-32) 1).store 1 (.uarrangement
          { parallel_ := 1, width_ := 64, height_ := 2 * (-32),
            panel_height_ := Int.tdiv (-32) 1, delegatee_ := some 0 })) = .ok h1) :=
  ⟨(C17_uarrangement_no_division_by_zero 1 0 (surfaceWithU 128 0 1) _ { canvas_ := 1 } 0
      { parallel_ := 1, width_ := 0, height_ := 0, panel_height_ := 0, delegatee_ := none }
      128 0 1 [] (some 1) 0 0 170 85 255 rfl rfl (by decide) rfl
      (surfaceWithU_bind_128 0)).1,
   (C17_uarrangement_no_division_by_zero 1 0 (surfaceWithU 128 (-32) 1) _ { canvas_ := 1 } 0
      { parallel_ := 1, width_ := 0, height_ := 0, panel_height_ := 0, delegatee_ := none }
      128 (-32) 1 [] (some 1) 0 0 170 85 255 rfl rfl (by decide) rfl
      (surfaceWithU_bind_128 (-32))).1⟩

/-! ## C18: a rotation is a bijection of the grids -/

/-- C18. A rotation canvas with stored angle 0, 90, 180 or 270 bound to a
recording surface of width `W` and height `H` (in particular for `W >= 0` and
`H >= 0`) reports some `width()` and `height()`; every logical pixel in
`[0, width()) x [0, height())` is forwarded to an inner pixel in
`[0, W) x [0, H)`; two `SetPixel` calls with the same outcome have the same
coordinates, so distinct logical pixels go to distinct inner pixels; and every
inner pixel of `[0, W) x [0, H)` is reached from a logical pixel in range. -/
theorem C18_rotate_bijection (n : Nat) (h : Heap) (c d : Nat) (a W H : Int)
    (calls : List Call) (r g b : Fin 256)
    (hc : h c = some (.rotate { delegatee_ := some d, angle_ := a }))
    (hd : h d = some (.surface { width := W, height := H, calls := calls }))
    (ha : a = 0 ∨ a = 90 ∨ a = 180 ∨ a = 270) :
    ∃ w ht, (Canvas.virt (n + 2)).width (some c) h = .ok w
      ∧ (Canvas.virt (n + 2)).height (some c) h = .ok ht
      ∧ (∀ x y, 0 ≤ x → x < w → 0 ≤ y → y < ht →
          ∃ u v, 0 ≤ u ∧ u < W ∧ 0 ≤ v ∧ v < H
            ∧ (Canvas.virt (n + 2)).SetPixel (some c) x y r g b h
              = .ok (h.store d (.surface
                  { width := W, height := H, calls := calls ++ [.SetPixel u v r g b] })))
      ∧ (∀ x1 y1 x2 y2,
          (Canvas.virt (n + 2)).SetPixel (some c) x1 y1 r g b h
            = (Canvas.virt (n + 2)).SetPixel (some c) x2 y2 r g b h →
          x1 = x2 ∧ y1 = y2)
      ∧ (∀ u v, 0 ≤ u → u < W → 0 ≤ v → v < H →
          ∃ x y, 0 ≤ x ∧ x < w ∧ 0 ≤ y ∧ y < ht
            ∧ (Canvas.virt (n + 2)).SetPixel (some c) x y r g b h
              = .ok (h.store d (.surface
                  { width := W, height := H, calls := calls ++ [.SetPixel u v r g b] }))) := by
  have F0 : Forwards (Canvas.virt (n + 1)) h (some d) d
      { width := W, height := H, calls := calls } W H (fun x y => (x, y)) :=
    Forwards.surface n h d _ hd
  have F := Forwards.rotate (n + 1) h c _ a d _ _ _ _ hc F0
  rcases ha with ha | ha | ha | ha
  · have G := F.1 ha
    obtain ⟨Gw, Gh, Gs⟩ := G
    have T := fun x1 y1 x2 y2 he => (F.1 ha).target_eq x1 y1 x2 y2 r g b he
    simp only [Prod.mk.injEq] at Gs T
    refine ⟨_, _, Gw, Gh, ?_, ?_, ?_⟩
    · intro x y hx0 hx1 hy0 hy1
      exact ⟨_, _, hx0, hx1, hy0, hy1, Gs x y r g b⟩
    · intro x1 y1 x2 y2 he
      have := T x1 y1 x2 y2 he
      omega
    · intro u v hu0 hu1 hv0 hv1
      exact ⟨u, v, hu0, hu1, hv0, hv1, Gs u v r g b⟩
  · have G := F.2.1 ha
    obtain ⟨Gw, Gh, Gs⟩ := G
    have T := fun x1 y1 x2 y2 he => (F.2.1 ha).target_eq x1 y1 x2 y2 r g b he
    simp only [Prod.mk.injEq] at Gs T
    refine ⟨_, _, Gw, Gh, ?_, ?_, ?_⟩
    · intro x y hx0 hx1 hy0 hy1
      exact ⟨_, _, by omega, by omega, hx0, hx1, Gs x y r g b⟩
    · intro x1 y1 x2 y2 he
      have := T x1 y1 x2 y2 he
      omega
    · intro u v hu0 hu1 hv0 hv1
      refine ⟨v, W - u - 1, hv0, hv1, by omega, by omega, ?_⟩
      rw [Gs v (W - u - 1) r g b, show W - (W - u - 1) - 1 = u by omega]
  · have G := F.2.2.1 ha
    obtain ⟨Gw, Gh, Gs⟩ := G
    have T := fun x1 y1 x2 y2 he => (F.2.2.1 ha).target_eq x1 y1 x2 y2 r g b he
    simp only [Prod.mk.injEq] at Gs T
    refine ⟨_, _, Gw, Gh, ?_, ?_, ?_⟩
    · intro x y hx0 hx1 hy0 hy1
      exact ⟨_, _, by omega, by omega, by omega, by omega, Gs x y r g b⟩
    · intro x1 y1 x2 y2 he
      have := T x1 y1 x2 y2 he
      omega
    · intro u v hu0 hu1 hv0 hv1
      refine ⟨W - u - 1, H - v - 1, by omega, by omega, by omega, by omega, ?_⟩
      rw [Gs (W - u - 1) (H - v - 1) r g b, show W - (W - u - 1) - 1 = u by omega,
        show H - (H - v - 1) - 1 = v by omega]
  · have G := F.2.2.2 ha
    obtain ⟨Gw, Gh, Gs⟩ := G
    have T := fun x1 y1 x2 y2 he => (F.2.2.2 ha).target_eq x1 y1 x2 y2 r g b he
    simp only [Prod.mk.injEq] at Gs T
    refine ⟨_, _, Gw, Gh, ?_, ?_, ?_⟩
    · intro x y hx0 hx1 hy0 hy1
      exact ⟨_, _, hy0, hy1, by omega, by omega, Gs x y r g b⟩
    · intro x1 y1 x2 y2 he
      have := T x1 y1 x2 y2 he
      omega
    · intro u v hu0 hu1 hv0 hv1
      refine ⟨H - v - 1, u, by omega, by omega, hu0, hu1, ?_⟩
      rw [Gs (H - v - 1) u r g b, show H - (H - v - 1) - 1 = v by omega]

/-- C18 on the inner 64x32 surface rotated by 90: the logical grid is 32x64 and
the pixel mapping is injective. -/
theorem C18_rotate_bijection_witness :
    ∃ w ht, (Canvas.virt 2).width (some 1) (rotated64x32 90) = .ok w
      ∧ (Canvas.virt 2).height (some 1) (rotated64x32 90) = .ok ht
      ∧ (∀ x1 y1 x2 y2,
          (Canvas.virt 2).SetPixel (some 1) x1 y1 170 85 255 (rotated64x32 90)
            = (Canvas.virt 2).SetPixel (some 1) x2 y2 170 85 255 (rotated64x32 90) →
          x1 = x2 ∧ y1 = y2) := by
  obtain ⟨w, ht, hw, hh, _, hinj, _⟩ :=
    C18_rotate_bijection 0 (rotated64x32 90) 1 0 90 64 32 [] 170 85 255 rfl rfl
      (Or.inr (Or.inl rfl))
  exact ⟨w, ht, hw, hh, hinj⟩

/-! ## C19: size and pixel mapping of MyNewTransformer -/

/-- C19. A `MyNewTransformer` canvas bound to a recording surface of width `W`
and height `H` reports `width() = W / 2` (the C++ quotient, which is the floor
for `W >= 0`) and `height() = 2 * H`.  For `x >= 0` and `y >= 0`,
`SetPixel(x, y, colour)` ends as exactly one `SetPixel`, colour unchanged, at
`((x mod 32) + 64 * (x / 32) + 32 * ((y / 8) mod 2), (y mod 8) + 8 * (y / 16))`.
When `W > 0` is a multiple of 64 and `H > 0` a multiple of 8, every logical
pixel of `[0, W / 2) x [0, 2 * H)` goes to an inner pixel of
`[0, W) x [0, H)`, two logical pixels of the grid whose `SetPixel` ends the
same way are the same pixel, and every inner pixel of the grid is reached. -/
theorem C19_mynew_mapping (n : Nat) (h : Heap) (c d : Nat) (W H : Int)
    (calls : List Call) (r g b : Fin 256)
    (hc : h c = some (.mynew { delegatee_ := some d }))
    (hd : h d = some (.surface { width := W, height := H, calls := calls })) :
    (Canvas.virt (n + 2)).width (some c) h = .ok (W.tdiv 2)
    ∧ (0 ≤ W → (Canvas.virt (n + 2)).width (some c) h = .ok (W / 2))
    ∧ (Canvas.virt (n + 2)).height (some c) h = .ok (2 * H)
    ∧ (∀ x y, 0 ≤ x → 0 ≤ y →
        (Canvas.virt (n + 2)).SetPixel (some c) x y r g b h
          = .ok (h.store d (.surface
              { width := W, height := H,
                calls := calls ++ [.SetPixel (x % 32 + 64 * (x / 32) + 32 * (y / 8 % 2))
                  (y % 8 + 8 * (y / 16)) r g b] })))
    ∧ (0 < W → 64 ∣ W → 0 < H → 8 ∣ H →
        (∀ x y, 0 ≤ x → x < W / 2 → 0 ≤ y → y < 2 * H →
          ∃ u v, 0 ≤ u ∧ u < W ∧ 0 ≤ v ∧ v < H
            ∧ (Canvas.virt (n + 2)).SetPixel (some c) x y r g b h
              = .ok (h.store d (.surface
                  { width := W, height := H, calls := calls ++ [.SetPixel u v r g b] })))
        ∧ (∀ x1 y1 x2 y2, 0 ≤ x1 → x1 < W / 2 → 0 ≤ y1 → y1 < 2 * H →
            0 ≤ x2 → x2 < W / 2 → 0 ≤ y2 → y2 < 2 * H →
            (Canvas.virt (n + 2)).SetPixel (some c) x1 y1 r g b h
              = (Canvas.virt (n + 2)).SetPixel (some c) x2 y2 r g b h →
            x1 = x2 ∧ y1 = y2)
        ∧ (∀ u v, 0 ≤ u → u < W → 0 ≤ v → v < H →
            ∃ x y, 0 ≤ x ∧ x < W / 2 ∧ 0 ≤ y ∧ y < 2 * H
              ∧ (Canvas.virt (n + 2)).SetPixel (some c) x y r g b h
                = .ok (h.store d (.surface
                    { width := W, height := H,
                      calls := calls ++ [.SetPixel u v r g b] })))) := by
  have S := fun x y hx hy => MyNew_SetPixel_nonneg n h c d W H calls x y r g b hc hd hx hy
  have hw : (Canvas.virt (n + 2)).width (some c) h = .ok (W.tdiv 2) := by
    rw [show n + 2 = (n + 1) + 1 from rfl, virt_width_mynew (n + 1) h c _ hc]
    simp [MyNewTransformer.TransformCanvas.width, virt_width_surface n h d _ hd, bind,
      Except.bind]
  refine ⟨hw, ?_, ?_, S, ?_⟩
  · intro hW
    rw [hw, Int.tdiv_eq_ediv hW (by omega)]
  · rw [show n + 2 = (n + 1) + 1 from rfl, virt_height_mynew (n + 1) h c _ hc]
    simp [MyNewTransformer.TransformCanvas.height, virt_height_surface n h d _ hd, bind,
      Except.bind, mul_comm]
  · intro hW h64 hH h8
    refine ⟨?_, ?_, ?_⟩
    · intro x y hx0 hx1 hy0 hy1
      exact ⟨_, _, by omega, by omega, by omega, by omega, S x y hx0 hy0⟩
    · intro x1 y1 x2 y2 hx0 hx1 hy0 hy1 gx0 gx1 gy0 gy1 he
      rw [S x1 y1 hx0 hy0, S x2 y2 gx0 gy0] at he
      obtain ⟨hu, hv⟩ := SetPixel_outcome_inj h d W H calls r g b he
      omega
    · intro u v hu0 hu1 hv0 hv1
      refine ⟨32 * (u / 64) + u % 32, 16 * (v / 8) + 8 * (u / 32 % 2) + v % 8, by omega,
        by omega, by omega, by omega, ?_⟩
      rw [S _ _ (by omega) (by omega)]
      exact SetPixel_outcome_congr h d W H calls r g b (by omega) (by omega)

/-- C19 on the inner 128x16 surface of the pixel test: the logical surface is
64 by 32, the pixel (5, 9) goes to (37, 1), and the mapping is injective on
the 64x32 grid that the test walks. -/
theorem C19_mynew_mapping_witness :
    (Canvas.virt 2).width (some 1) mynew128x16 = .ok 64
    ∧ (Canvas.virt 2).height (some 1) mynew128x16 = .ok 32
    ∧ (Canvas.virt 2).SetPixel (some 1) 5 9 170 85 255 mynew128x16
        = .ok (mynew128x16.store 0 (.surface
            { width := 128, height := 16, calls := [.SetPixel 37 1 170 85 255] }))
    ∧ (∀ x1 y1 x2 y2, 0 ≤ x1 → x1 < (128 : Int) / 2 → 0 ≤ y1 → y1 < (2 : Int) * 16 →
        0 ≤ x2 → x2 < (128 : Int) / 2 → 0 ≤ y2 → y2 < (2 : Int) * 16 →
        (Canvas.virt 2).SetPixel (some 1) x1 y1 170 85 255 mynew128x16
          = (Canvas.virt 2).SetPixel (some 1) x2 y2 170 85 255 mynew128x16 →
        x1 = x2 ∧ y1 = y2) :=
  ⟨(C19_mynew_mapping 0 mynew128x16 1 0 128 16 [] 170 85 255 rfl rfl).1,
   (C19_mynew_mapping 0 mynew128x16 1 0 128 16 [] 170 85 255 rfl rfl).2.2.1,
   (C19_mynew_mapping 0 mynew128x16 1 0 128 16 [] 170 85 255 rfl rfl).2.2.2.1 5 9
      (by decide) (by decide),
   ((C19_mynew_mapping 0 mynew128x16 1 0 128 16 [] 170 85 255 rfl rfl).2.2.2.2
      (by decide) (by decide) (by decide) (by decide)).2.1⟩

/-! ## C20: pixel mapping of the legacy preset -/

/-- C20. Bind the legacy preset (U-arrangement canvas with one parallel chain,
rotation canvas with stored angle 180) to a recording surface whose width
`W > 0` is a multiple of 64 and whose height is `H > 0`.  The binding
succeeds, the outer surface is `W / 2` wide and `2 * H` high, and
`SetPixel(x, y, colour)` with `0 <= x < W / 2` ends as exactly one `SetPixel`
on the inner surface, at `(x, y)` when `0 <= y < H` and at
`(W - 1 - x, 2 * H - 1 - y)` when `H <= y < 2 * H`; a write outside
`[0, W / 2) x [0, 2 * H)` leaves the heap unchanged. -/
theorem C20_large_square_mapping (k n : Nat) (h0 : Heap) (P : LargeSquare64x64Transformer)
    (sa : UArrangementTransformer.TransformCanvas) (sr : RotateTransformer.TransformCanvas)
    (d : Nat) (W H : Int) (calls : List Call) (x y : Int) (r g b : Fin 256)
    (hca : h0 P.arrange_.canvas_ = some (.uarrangement sa)) (hpa : sa.parallel_ = 1)
    (hcr : h0 P.rotated_.canvas_ = some (.rotate sr)) (hra : sr.angle_ = 180)
    (hd : h0 d = some (.surface { width := W, height := H, calls := calls }))
    (hW : 0 < W) (h64 : 64 ∣ W) (hH : 0 < H) :
    ∃ out h, P.Transform (Canvas.virt (k + 1)) (some d) h0 = .ok (out, h)
      ∧ (Canvas.virt (n + 3)).width out h = .ok (W / 2)
      ∧ (Canvas.virt (n + 3)).height out h = .ok (2 * H)
      ∧ (0 ≤ x → x < W / 2 → 0 ≤ y → y < H →
          (Canvas.virt (n + 3)).SetPixel out x y r g b h
            = .ok (h.store d (.surface
                { width := W, height := H, calls := calls ++ [.SetPixel x y r g b] })))
      ∧ (0 ≤ x → x < W / 2 → H ≤ y → y < 2 * H →
          (Canvas.virt (n + 3)).SetPixel out x y r g b h
            = .ok (h.store d (.surface
                { width := W, height := H,
                  calls := calls ++ [.SetPixel (W - 1 - x) (2 * H - 1 - y) r g b] })))
      ∧ (x < 0 ∨ x ≥ W / 2 ∨ y < 0 ∨ y ≥ 2 * H →
          (Canvas.virt (n + 3)).SetPixel out x y r g b h = .ok h) := by
  obtain ⟨h, hT, er, eu, ed⟩ :=
    LargeSquare_Transform_surface k h0 P sa sr d _ hca hpa hcr hd
  rw [hra] at er
  exact ⟨_, h, hT,
    LargeSquare_bound_behaviour n h _ _ d W H calls x y r g b er eu ed hW h64 hH⟩

/-- C20 on the 128x32 inner surface of the 64x64 square: the outer surface is
64 by 64, (3, 5) goes to (3, 5), (3, 40) goes to (124, 23), and a write at
(64, 0) reaches nothing. -/
theorem C20_large_square_mapping_witness :
    ∃ out h, LargeSquare64x64Transformer.Transform (Canvas.virt 1) largeSquarePreset (some 0)
          (surfaceWithLargeSquare 128 32) = .ok (out, h)
      ∧ (Canvas.virt 3).width out h = .ok 64
      ∧ (Canvas.virt 3).height out h = .ok 64
      ∧ (Canvas.virt 3).SetPixel out 3 5 170 85 255 h
          = .ok (h.store 0 (.surface
              { width := 128, height := 32, calls := [.SetPixel 3 5 170 85 255] }))
      ∧ (Canvas.virt 3).SetPixel out 3 40 170 85 255 h
          = .ok (h.store 0 (.surface
              { width := 128, height := 32, calls := [.SetPixel 124 23 170 85 255] }))
      ∧ (Canvas.virt 3).SetPixel out 64 0 170 85 255 h = .ok h := by
  obtain ⟨out, h, hT, hw, hh, p1, _, _⟩ :=
    C20_large_square_mapping 0 0 (surfaceWithLargeSquare 128 32) largeSquarePreset
      { parallel_ := 1, width_ := 0, height_ := 0, panel_height_ := 0, delegatee_ := none }
      { delegatee_ := none, angle_ := 180 } 0 128 32 [] 3 5 170 85 255
      rfl rfl rfl rfl rfl (by decide) (by decide) (by decide)
  obtain ⟨out2, h2, hT2, _, _, _, p2, _⟩ :=
    C20_large_square_mapping 0 0 (surfaceWithLargeSquare 128 32) largeSquarePreset
      { parallel_ := 1, width_ := 0, height_ := 0, panel_height_ := 0, delegatee_ := none }
      { delegatee_ := none, angle_ := 180 } 0 128 32 [] 3 40 170 85 255
      rfl rfl rfl rfl rfl (by decide) (by decide) (by decide)
  obtain ⟨out3, h3, hT3, _, _, _, _, p3⟩ :=
    C20_large_square_mapping 0 0 (surfaceWithLargeSquare 128 32) largeSquarePreset
      { parallel_ := 1, width_ := 0, height_ := 0, panel_height_ := 0, delegatee_ := none }
      { delegatee_ := none, angle_ := 180 } 0 128 32 [] 64 0 170 85 255
      rfl rfl rfl rfl rfl (by decide) (by decide) (by decide)
  rw [hT] at hT2 hT3
  obtain ⟨rfl, rfl⟩ := Prod.mk.inj (Except.ok.inj hT2)
  obtain ⟨rfl, rfl⟩ := Prod.mk.inj (Except.ok.inj hT3)
  exact ⟨out, h, hT, hw, hh, p1 (by decide) (by decide) (by decide) (by decide),
    p2 (by decide) (by decide) (by decide) (by decide), p3 (by decide)⟩

end rgb_matrix
